import Mathlib

/-!
Verification model of the Altinn3 XML flattening library
(`src/altinn/flatten.py`, `src/altinn/utils.py`, `src/altinn/tabell_i_tabell.py`).

The Python code is shallowly embedded: pandas DataFrames become lists of
structures (one structure field per column, one list entry per row, in row
order), parsed XML (the output of `xmltodict.parse`) becomes the inductive
type `Node`, and fallible Python code returns `Except PyError`.
-/

namespace Altinn

/-- Python exceptions that the modelled code can raise. -/
inductive PyError where
  | valueError (msg : String)
  | keyError (key : String)
  | typeError
  | indexError
  | stopIteration
  | jsonDecodeError
  | attributeError
deriving DecidableEq, Repr

instance exceptDecEq {e a : Type} [DecidableEq e] [DecidableEq a] :
    DecidableEq (Except e a)
  | .error x, .error y =>
    if h : x = y then .isTrue (by rw [h])
    else .isFalse (by intro hc; injection hc; exact h (by assumption))
  | .error x, .ok y => .isFalse (by intro hc; exact Except.noConfusion hc)
  | .ok x, .error y => .isFalse (by intro hc; exact Except.noConfusion hc)
  | .ok x, .ok y =>
    if h : x = y then .isTrue (by rw [h])
    else .isFalse (by intro hc; injection hc; exact h (by assumption))

/-- A node of the parsed XML document as produced by `xmltodict.parse`:
a scalar (text, or `None` for an empty element), an ordered mapping
(tag name to child node), or a list (a repeated sibling group). -/
inductive Node where
  | scalar : Option String → Node
  | map : List (String × Node) → Node
  | list : List Node → Node

/-- One counter marker as `_flatten_dict` builds it: `"£" + str(counter) + "$"`
(flatten.py line 64 / 73). -/
def counterMark (counter : Nat) : String :=
  "£" ++ toString counter ++ "$"

mutual

/-- The loop body of `_flatten_dict` (flatten.py lines 58-85), producing the
`items` list, before the final `dict(items)`.  The local `counter` is reset to
0 at the end of every key iteration (line 85), so when the mapping branch
(line 61) fires the marker is always `£1$`; inside the list branch (line 67)
`counter` equals the 1-based position of the element in the list.  A list
element that is not a mapping appends `(new_key, v)` where `v` is the whole
list (line 78). -/
def flattenItems : List (String × Node) → String → String → List (String × Node)
  | [], _, _ => []
  | (k, v) :: rest, parent_key, sep =>
    let new_key := if parent_key = "" then k else parent_key ++ sep ++ k
    (match v with
      | Node.map m => flattenItems m (counterMark 1 ++ new_key) sep
      | Node.list es => flattenListElems es 1 new_key (Node.list es) sep
      | Node.scalar s => [(new_key, Node.scalar s)])
    ++ flattenItems rest parent_key sep

/-- The `elif isinstance(v, list)` branch of `_flatten_dict`
(flatten.py lines 67-80); `counter` is the 1-based element position and
`whole` is the complete list value `v`. -/
def flattenListElems : List Node → Nat → String → Node → String → List (String × Node)
  | [], _, _, _, _ => []
  | e :: rest, counter, new_key, whole, sep =>
    (match e with
      | Node.map m => flattenItems m (counterMark counter ++ new_key) sep
      | _ => [(new_key, whole)])
    ++ flattenListElems rest (counter + 1) new_key whole sep

end

/-- Python `dict(items)` semantics, processed with the set `seen` of keys
already emitted: keys keep the order of their first occurrence and each key
holds the value of its last occurrence. -/
def pyDictGo (seen : List String) : List (String × Node) → List (String × Node)
  | [] => []
  | (k, v) :: rest =>
    if seen.contains k then pyDictGo seen rest
    else (k, ((rest.filter (fun p => p.1 = k)).map Prod.snd).getLastD v) ::
      pyDictGo (k :: seen) rest

/-- Python `dict(items)`. -/
def pyDict (items : List (String × Node)) : List (String × Node) :=
  pyDictGo [] items

/-- `_flatten_dict` (flatten.py lines 43-87): the flattened items turned into
a Python dict. -/
def _flatten_dict (d : List (String × Node)) (parent_key : String)
    (sep : String) : List (String × Node) :=
  pyDict (flattenItems d parent_key sep)

/-- State machine equivalent of `re.findall(r"£(.*?)\$", value)`
(`_extract_counter`, flatten.py line 39): on a `£` start capturing lazily,
on the first following `$` emit the capture; a `£` with no later `$`
matches nothing.  `acc` holds the current capture in reverse. -/
def extractCounterGo : List Char → Option (List Char) → List String
  | [], _ => []
  | c :: rest, none =>
    if c = '£' then extractCounterGo rest (some [])
    else extractCounterGo rest none
  | c :: rest, some acc =>
    if c = '$' then String.mk acc.reverse :: extractCounterGo rest none
    else extractCounterGo rest (some (c :: acc))

/-- `_extract_counter` (flatten.py lines 26-40). -/
def _extract_counter (value : String) : List String :=
  extractCounterGo value.data none

/-- State machine equivalent of `str.replace(r"£.*?\$", "", regex=True)`
(flatten.py lines 514 and 625): each lazy match `£...$` is deleted; a `£`
never followed by `$` is kept (no match), as is everything outside matches.
`pending` holds, in reverse, the characters of a potential match started at
a `£`. -/
def stripCountersGo : List Char → Option (List Char) → List Char
  | [], none => []
  | [], some pending => pending.reverse
  | c :: rest, none =>
    if c = '£' then stripCountersGo rest (some [c])
    else c :: stripCountersGo rest none
  | c :: rest, some pending =>
    if c = '$' then stripCountersGo rest none
    else stripCountersGo rest (some (c :: pending))

/-- The counter markers stripped out of a field name. -/
def stripCounters (s : String) : String :=
  String.mk (stripCountersGo s.data none)

/-- Python `str.zfill(width)`: pad on the left with `0` up to `width`,
keeping a leading sign in front of the padding. -/
def zfill (s : String) (width : Nat) : String :=
  if s.length ≥ width then s
  else
    match s.data with
    | c :: rest =>
      if c = '+' ∨ c = '-' then
        String.mk (c :: (List.replicate (width - s.length) '0' ++ rest))
      else String.mk (List.replicate (width - s.length) '0' ++ s.data)
    | [] => String.mk (List.replicate width '0')

/-- Python `str.strip()` with no argument (pandas `.str.strip()`,
flatten.py line 514): leading and trailing whitespace removed. -/
def pyStrip (s : String) : String :=
  String.mk (((s.data.dropWhile Char.isWhitespace).reverse.dropWhile
    Char.isWhitespace).reverse)

/-- Scan for `sub` as a prefix of some suffix of the text. -/
def containsSubGo (sub : List Char) : List Char → Bool
  | [] => sub.isPrefixOf ([] : List Char)
  | c :: rest => sub.isPrefixOf (c :: rest) || containsSubGo sub rest

/-- Substring containment, the semantics of pandas
`.str.contains(pat)` for a pattern with no regex metacharacters and of
Python `sub in s`. -/
def containsSub (s sub : String) : Bool :=
  containsSubGo sub.data s.data

/-- Python `str.replace("\n", " ")` (flatten.py line 516): every newline
becomes a space. -/
def replaceNL (s : String) : String :=
  String.mk (s.data.map (fun c => if c = '\n' then ' ' else c))

/-- Python `str.replace(pat, rep)` for a non-empty plain pattern: replace
every non-overlapping occurrence, left to right.  After a match the `skip`
counter consumes the remaining `pat.length - 1` matched characters. -/
def pyReplaceGo (pat rep : List Char) : List Char → Nat → List Char
  | [], _ => []
  | c :: rest, 0 =>
    if pat.isPrefixOf (c :: rest) then rep ++ pyReplaceGo pat rep rest (pat.length - 1)
    else c :: pyReplaceGo pat rep rest 0
  | _ :: rest, Nat.succ k => pyReplaceGo pat rep rest k

/-- Python `str.replace(pat, rep)` (for the non-empty patterns used here). -/
def pyReplace (s pat rep : String) : String :=
  String.mk (pyReplaceGo pat.data rep.data s.data 0)

/-- Python `str.split(sep)` for a non-empty separator, accumulating the
current piece in reverse in `cur`; `skip` consumes the matched separator. -/
def pySplitGo (sep : List Char) : List Char → List Char → Nat → List String
  | [], cur, _ => [String.mk cur.reverse]
  | c :: rest, cur, 0 =>
    if sep.isPrefixOf (c :: rest) then
      String.mk cur.reverse :: pySplitGo sep rest [] (sep.length - 1)
    else pySplitGo sep rest (c :: cur) 0
  | _ :: rest, cur, Nat.succ k => pySplitGo sep rest cur k

/-- Python `str.split(sep)` (for the non-empty separators used here). -/
def pySplit (s sep : String) : List String :=
  pySplitGo sep.data s.data [] 0

/-- Python `str.lower()` (ASCII range, which covers the field names used). -/
def pyLower (s : String) : String :=
  String.mk (s.data.map Char.toLower)

/-- Python `str.upper()` (ASCII range, which covers the metadata keys used). -/
def pyUpper (s : String) : String :=
  String.mk (s.data.map Char.toUpper)

/-- Decimal digits to a number. -/
def parseNatGo (acc : Nat) : List Char → Option Nat
  | [] => some acc
  | c :: rest =>
    if c.isDigit then parseNatGo (acc * 10 + (c.toNat - 48)) rest else none

/-- A non-empty all-digit string to a number. -/
def parseNat : List Char → Option Nat
  | [] => none
  | l => parseNatGo 0 l

end Altinn

namespace Altinn

/-- A single ASCII apostrophe, for building Python message strings. -/
def sq : String := String.singleton (Char.ofNat 39)

/-- A row of the two-column working DataFrame (`FELTNAVN`, `FELTVERDI`)
built by `_parse_tag_elements`, `_make_meta_df` and `_make_angiver_row_df`. -/
structure ARow where
  FELTNAVN : String
  FELTVERDI : Node

/-- A row of the working DataFrame after `_add_interninfo_columns`
(flatten.py lines 486-518): the two payload columns plus the five
broadcast columns and the `COUNTER`/`LEVELS` side channels. -/
structure WRow where
  FELTNAVN : String
  FELTVERDI : String
  IDENT_NR : Node
  VERSION_NR : Option String
  DELREG_NR : Node
  ENHETS_TYPE : Node
  SKJEMA_ID : String
  COUNTER : List String
  LEVELS : Nat

/-- A row of the final ISEE frame, fields in the order of `columns_order`
(flatten.py lines 578-586). -/
structure IseeRow where
  SKJEMA_ID : String
  DELREG_NR : Node
  IDENT_NR : Node
  ENHETS_TYPE : Node
  FELTNAVN : String
  FELTVERDI : String
  VERSION_NR : Option String

/-- `_create_levels_col` (flatten.py lines 187-204) applied to a row whose
`COUNTER` cell is the given list. -/
def _create_levels_col (counter : List String) : Nat :=
  if counter.length > 1 then 2
  else if counter.length = 1 then 1
  else 0

/-- The per-row mutation of the `_add_lopenr` loop (flatten.py lines
229-232): every row with `LEVELS > 0` gets `"_" + counter[-1].zfill(3)`
appended to its field name; `[-1]` on an empty list raises `IndexError`. -/
def lopenrRow (r : WRow) : Except PyError WRow :=
  if r.LEVELS > 0 then
    match r.COUNTER.getLast? with
    | some last => .ok { r with FELTNAVN := r.FELTNAVN ++ "_" ++ zfill last 3 }
    | none => .error .indexError
  else .ok r

/-- The `_add_lopenr` loop over all rows, in row order. -/
def lopenrRows : List WRow → Except PyError (List WRow)
  | [] => .ok []
  | r :: rest => do
    let r2 ← lopenrRow r
    let rest2 ← lopenrRows rest
    .ok (r2 :: rest2)


/-- Order-preserving deduplication with the elements already emitted in
`seen`. -/
def pyUniqueGo [BEq α] (seen : List α) : List α → List α
  | [] => []
  | x :: rest =>
    if seen.contains x then pyUniqueGo seen rest
    else x :: pyUniqueGo (x :: seen) rest

/-- Order-preserving deduplication of a column (`pandas.Series.unique()`
keeps the first occurrence), also the elements of a Python `set` built from
a list. -/
def pyUnique [BEq α] (l : List α) : List α :=
  pyUniqueGo [] l

/-- `_add_lopenr` (flatten.py lines 207-236): collect the diagnostic set of
field names at `LEVELS > 1` (printed, non-fatal), then suffix every row with
`LEVELS > 0`; returns the new rows and the printed name list.  The
`COUNTER`/`LEVELS` columns dropped at line 234 are simply never read
afterwards. -/
def _add_lopenr (df : List WRow) : Except PyError (List WRow × List String) := do
  let complex_values := pyUnique
    ((df.filter (fun r => r.LEVELS > 1)).map (fun r => r.FELTNAVN))
  let rows ← lopenrRows df
  .ok (rows, complex_values)

/-- Modelled from the spec: `utils._split_string` is called by
`_transform_checkbox_var` (flatten.py line 267) but is absent from the copy
of `utils.py` in this repository.  Per the spec (§4.5 Checkbox Expander and
§8 Row-count conservation), the value is split on a fixed delimiter, the
comma, into independent option tokens. -/
def _split_string (s : String) : List String :=
  pySplit s ","

/-- `_transform_checkbox_var` (flatten.py lines 239-285): if the checkbox
field name occurs, remove its rows and append, for each of them and each
comma token of its value, a copy with the new name and value. -/
def _transform_checkbox_var (df : List WRow) (checkbox_var : String)
    (unique_code : Bool) (new_value : String) : List WRow :=
  if df.any (fun r => r.FELTNAVN = checkbox_var) then
    let checkbox_df := df.filter (fun r => r.FELTNAVN = checkbox_var)
    let kept := df.filter (fun r => r.FELTNAVN ≠ checkbox_var)
    kept ++ checkbox_df.flatMap (fun row =>
      (_split_string row.FELTVERDI).map (fun value =>
        if unique_code = false then
          { row with FELTNAVN := checkbox_var ++ value, FELTVERDI := new_value }
        else
          { row with FELTNAVN := value, FELTVERDI := new_value }))
  else df

/-- `pandas.Series.replace` with a dict argument, applied to one element
(flatten.py line 574): an element equal to a key of the mapping becomes its
value, in one non-recursive pass; other elements pass through. -/
def seriesReplace (mapping : List (String × String)) (s : String) : String :=
  match mapping.lookup s with
  | some v => v
  | none => s

/-- Position of the first occurrence of `sub` at or after `i`. -/
def findSubGo (sub : List Char) : List Char → Nat → Option Nat
  | [], i => if sub.isPrefixOf ([] : List Char) then some i else none
  | c :: rest, i =>
    if sub.isPrefixOf (c :: rest) then some i else findSubGo sub rest (i + 1)

/-- Python `str.find(sub, start)`, with `none` for `-1`. -/
def pyFind (s sub : String) (start : Nat) : Option Nat :=
  findSubGo sub.data (s.data.drop start) start

/-- `_extract_angiver_id` (flatten.py lines 148-164): the text between the
`/form_` marker and the following `.xml`, or `None` when either is absent. -/
def _extract_angiver_id (file_path : String) : Option String :=
  match pyFind file_path "/form_" 0 with
  | none => none
  | some i =>
    let start := i + 6
    match pyFind file_path ".xml" start with
    | none => none
    | some j => some (String.mk ((file_path.data.drop start).take (j - start)))

/-- `_make_angiver_row_df` (flatten.py lines 167-184). -/
def _make_angiver_row_df (file_path : String) : ARow :=
  { FELTNAVN := "ANGIVER_ID"
    FELTVERDI := Node.scalar (_extract_angiver_id file_path) }

/-- What the filesystem holds at the sidecar JSON path: nothing, a JSON
object that parses (the sidecar is a flat string-to-string object), or
bytes that make `json.load` raise `JSONDecodeError`. -/
inductive FileContent where
  | absent
  | validJson (kvs : List (String × String))
  | malformed

/-- `utils.is_gcs` (utils.py lines 10-19). -/
def is_gcs (file_path : String) : Bool :=
  "gs://".data.isPrefixOf file_path.data

/-- The sidecar path derivation of `_read_json_meta` (flatten.py line 399):
replace every `form_` with `meta_` and every `.xml` with `.json`. -/
def metaPath (file_path : String) : String :=
  pyReplace (pyReplace file_path "form_" "meta_") ".xml" ".json"

/-- `_read_json_meta` (flatten.py lines 387-422).  On the GCS branch a
`JSONDecodeError` is caught, printed and turned into `None` (lines
407-412); the local branch has no such handler (lines 418-420), so there a
malformed file raises. -/
def _read_json_meta (fs : String → FileContent) (file_path : String) :
    Except PyError (Option (List (String × String))) :=
  let json_file_path := metaPath file_path
  if is_gcs json_file_path then
    match fs json_file_path with
    | .absent => .ok none
    | .validJson kvs => .ok (some kvs)
    | .malformed => .ok none
  else
    match fs json_file_path with
    | .absent => .ok none
    | .validJson kvs => .ok (some kvs)
    | .malformed => .error .jsonDecodeError

/-- `_make_meta_df` (flatten.py lines 358-384), with the Oslo time-zone
conversion `_convert_to_oslo_time` kept abstract as `oslo` (it is an
external `datetime`/`zoneinfo` computation): keys are upper-cased into
field names and the `ALTINNTIDSPUNKTLEVERT` value is converted. -/
def _make_meta_df (oslo : String → String) (meta_dict : List (String × String)) :
    List ARow :=
  meta_dict.map (fun kv =>
    let name := pyUpper kv.1
    { FELTNAVN := name
      FELTVERDI := Node.scalar
        (some (if name = "ALTINNTIDSPUNKTLEVERT" then oslo kv.2 else kv.2)) })

/-- `_attach_metadata` (flatten.py lines 473-483): `_make_meta_df` when the
sidecar dict is truthy (present and non-empty), otherwise an empty frame. -/
def _attach_metadata (fs : String → FileContent) (oslo : String → String)
    (file_path : String) : Except PyError (List ARow) := do
  let meta_dict ← _read_json_meta fs file_path
  match meta_dict with
  | some kvs => if kvs.isEmpty then .ok [] else .ok (_make_meta_df oslo kvs)
  | none => .ok []

/-- The required `InternInfo` keys (flatten.py line 108). -/
def required_keys : List String := ["enhetsIdent", "enhetsType", "delregNr"]

/-- Python `key in x` for the shapes `x` can take here: key lookup in a
dict, substring test in a string, membership in a list (a list element
equals the string key only when it is that string scalar), `TypeError` on
`None`. -/
def pyIn (key : String) : Node → Except PyError Bool
  | .map m => .ok (m.any (fun p => p.1 = key))
  | .scalar (some s) => .ok (containsSub s key)
  | .scalar none => .error .typeError
  | .list es => .ok (es.any (fun e =>
      match e with
      | .scalar (some s) => s = key
      | _ => false))

/-- The list comprehension `[key for key in required_keys if key not in
intern_info]` (flatten.py line 113). -/
def missingKeysGo (intern_info : Node) : List String → Except PyError (List String)
  | [] => .ok []
  | k :: rest => do
    let b ← pyIn k intern_info
    let ms ← missingKeysGo intern_info rest
    .ok (if b then ms else k :: ms)

/-- `_validate_interninfo` (flatten.py lines 90-123), on the already parsed
document: returns whether all required keys are present together with the
list of missing keys printed as a diagnostic (lines 116-119). -/
def _validate_interninfo (xml_dict : List (String × Node)) :
    Except PyError (Bool × List String) := do
  let root_v ← match xml_dict with
    | [] => .error .stopIteration
    | (_, v) :: _ => .ok v
  let rm ← match root_v with
    | .map m => .ok m
    | _ => .error .attributeError
  let intern_info := (rm.lookup "InternInfo").getD (Node.map [])
  let missing_keys ← missingKeysGo intern_info required_keys
  if missing_keys.isEmpty then .ok (true, []) else .ok (false, missing_keys)

/-- The fixed message of the `ValueError` raised by `_validate_file` when
`_validate_interninfo` fails (flatten.py lines 443-446): it always names
all three required keys and the file path. -/
def missingKeysMsg (file_path : String) : String :=
  "File is missing one or more of the required keys in InternInfo [" ++
    sq ++ "enhetsIdent" ++ sq ++ ", " ++ sq ++ "enhetsType" ++ sq ++ ", " ++
    sq ++ "delregNr" ++ sq ++ "]: " ++ file_path

/-- `_validate_file` (flatten.py lines 425-446), with the result of
`utils.is_valid_xml` (an I/O check) passed in as `xmlValid`. -/
def _validate_file (xmlValid : Bool) (xml_dict : List (String × Node))
    (file_path : String) : Except PyError Unit := do
  if xmlValid then do
    let r ← _validate_interninfo xml_dict
    if r.1 then .ok () else .error (.valueError (missingKeysMsg file_path))
  else .error (.valueError ("File is not a valid XML-file: " ++ file_path))

/-- Python truthiness of `tag_data` in `if tag_data:`
(flatten.py line 466). -/
def pyTruthy : Option Node → Bool
  | none => false
  | some (.scalar none) => false
  | some (.scalar (some s)) => s ≠ ""
  | some (.map m) => !m.isEmpty
  | some (.list es) => !es.isEmpty

/-- The loop of `_parse_tag_elements` (flatten.py lines 463-470): for each
tag, flatten its (truthy) data; `_flatten_dict` on a non-mapping raises. -/
def tagLoop (kvs : List (String × Node)) : List String → Except PyError (List ARow)
  | [] => .ok []
  | tag :: rest => do
    let tag_data := kvs.lookup tag
    let here ← if pyTruthy tag_data then
        match tag_data with
        | some (.map m) => .ok ((_flatten_dict m "" "_").map (fun p => ARow.mk p.1 p.2))
        | _ => .error .attributeError
      else .ok []
    let rest2 ← tagLoop kvs rest
    .ok (here ++ rest2)

/-- `_parse_tag_elements` (flatten.py lines 449-470). -/
def _parse_tag_elements (content : Node) (tag_list : List String) :
    Except PyError (List ARow) := do
  let kvs ← match content with
    | .map m => .ok m
    | _ => .error .attributeError
  tagLoop kvs tag_list

/-- The escaping Python `repr` applies to the characters of a string
literal that matter here: backslash, newline, carriage return and tab are
escaped (so no literal newline survives `repr`). -/
def pyEscape (s : String) : String :=
  String.join (s.data.map (fun c =>
    if c = '\\' then "\\\\"
    else if c = '\n' then "\\n"
    else if c = '\r' then "\\r"
    else if c = '\t' then "\\t"
    else String.singleton c))

mutual

/-- Python `repr` of a parsed-XML value: quoted strings, `None`, and the
bracketed element/key-value syntax for lists and dicts. -/
def pyRepr : Node → String
  | .scalar none => "None"
  | .scalar (some s) => sq ++ pyEscape s ++ sq
  | .map m => "\x7b" ++ pyReprKVs m ++ "\x7d"
  | .list es => "[" ++ pyReprElems es ++ "]"

/-- Comma-separated `repr` of dict items. -/
def pyReprKVs : List (String × Node) → String
  | [] => ""
  | [(k, v)] => sq ++ pyEscape k ++ sq ++ ": " ++ pyRepr v
  | (k, v) :: rest => sq ++ pyEscape k ++ sq ++ ": " ++ pyRepr v ++ ", " ++ pyReprKVs rest

/-- Comma-separated `repr` of list elements. -/
def pyReprElems : List Node → String
  | [] => ""
  | [e] => pyRepr e
  | e :: rest => pyRepr e ++ ", " ++ pyReprElems rest

end

/-- Python `str(x)` for a DataFrame cell as `astype(str)` sees it here
(flatten.py line 516): a string stays itself, `None` renders as `"None"`,
a list or dict cell renders through `repr`. -/
def pyStr : Node → String
  | .scalar none => "None"
  | .scalar (some s) => s
  | .map m => pyRepr (Node.map m)
  | .list es => pyRepr (Node.list es)

/-- `_add_interninfo_columns` (flatten.py lines 486-518): attach the five
broadcast columns read from `InternInfo` and the path, drop `@xsi:nil`
rows, extract and strip the counters, stringify `FELTVERDI` replacing
newlines by spaces, and compute `LEVELS`. -/
def _add_interninfo_columns (rows : List ARow) (content : Node)
    (file_path : String) : Except PyError (List WRow) :=
  match content with
  | Node.map kvs =>
    match kvs.lookup "InternInfo" with
    | some interninfoN =>
      match interninfoN with
      | Node.map interninfo =>
        match interninfo.lookup "enhetsIdent" with
        | some ident =>
          let version := _extract_angiver_id file_path
          match interninfo.lookup "delregNr" with
          | some delreg =>
            match interninfo.lookup "enhetsType" with
            | some etype =>
              match interninfo.lookup "raNummer" with
              | some ra =>
                match ra with
                | Node.scalar (some raS) =>
                  let rows1 := rows.filter
                    (fun r => !(containsSub r.FELTNAVN "@xsi:nil"))
                  .ok (rows1.map (fun r =>
                    let counter := _extract_counter r.FELTNAVN
                    { FELTNAVN := pyStrip (stripCounters r.FELTNAVN)
                      FELTVERDI := replaceNL (pyStr r.FELTVERDI)
                      IDENT_NR := ident
                      VERSION_NR := version
                      DELREG_NR := delreg
                      ENHETS_TYPE := etype
                      SKJEMA_ID := raS ++ "A3"
                      COUNTER := counter
                      LEVELS := _create_levels_col counter }))
                | _ => .error .typeError
              | none => .error (.keyError "raNummer")
            | none => .error (.keyError "enhetsType")
          | none => .error (.keyError "delregNr")
        | none => .error (.keyError "enhetsIdent")
      | _ => .error .typeError
    | none => .error (.keyError "InternInfo")
  | _ => .error .typeError

/-- `isee_transform` (flatten.py lines 521-590).  File reads are replaced
by their results: `xmlValid` is `utils.is_valid_xml`, `xml_dict` the parsed
XML, `fs` the filesystem visible to `_read_json_meta`, `oslo` the
`_convert_to_oslo_time` conversion. -/
def isee_transform (xmlValid : Bool) (xml_dict : List (String × Node))
    (fs : String → FileContent) (oslo : String → String) (file_path : String)
    (mapping : List (String × String)) (tag_list : List String)
    (checkbox_vars : List String)
    (unique_code : Bool) : Except PyError (List IseeRow) :=
  match _validate_file xmlValid xml_dict file_path with
  | .error e => .error e
  | .ok _ =>
    match xml_dict with
    | [] => .error .stopIteration
    | (_, content) :: _ =>
      match _parse_tag_elements content tag_list with
      | .error e => .error e
      | .ok parsed =>
        match _attach_metadata fs oslo file_path with
        | .error e => .error e
        | .ok meta =>
          let withMeta := parsed ++ meta ++ [_make_angiver_row_df file_path]
          match _add_interninfo_columns withMeta content file_path with
          | .error e => .error e
          | .ok withCols =>
            let afterCb := checkbox_vars.foldl
              (fun df v => _transform_checkbox_var df v unique_code "1") withCols
            let afterMap := afterCb.map
              (fun r => { r with FELTNAVN := seriesReplace mapping r.FELTNAVN })
            match _add_lopenr afterMap with
            | .error e => .error e
            | .ok res => .ok (res.1.map (fun r =>
                { SKJEMA_ID := r.SKJEMA_ID
                  DELREG_NR := r.DELREG_NR
                  IDENT_NR := r.IDENT_NR
                  ENHETS_TYPE := r.ENHETS_TYPE
                  FELTNAVN := r.FELTNAVN
                  FELTVERDI := r.FELTVERDI
                  VERSION_NR := r.VERSION_NR }))

/-- A row of the frame returned by `xml_transform`: columns `FELTNAVN`,
`FELTVERDI`, `LEVEL` (the `COUNTER` column is dropped at line 629). -/
structure XRow where
  FELTNAVN : String
  FELTVERDI : Node
  LEVEL : List String

/-- `xml_transform` (flatten.py lines 593-635): flatten the whole root
content, set `LEVEL` to the reversed counter list, strip the markers from
`FELTNAVN` (no whitespace strip here), drop `COUNTER`. -/
def xml_transform (xmlValid : Bool) (xml_dict : List (String × Node))
    (file_path : String) : Except PyError (List XRow) := do
  if xmlValid then
    let input_dict ← match xml_dict with
      | [] => .error .stopIteration
      | (_, v) :: _ => .ok v
    let m ← match input_dict with
      | .map mm => .ok mm
      | _ => .error .attributeError
    let final_dict := _flatten_dict m "" "_"
    .ok (final_dict.map (fun p =>
      { FELTNAVN := stripCounters p.1
        FELTVERDI := p.2
        LEVEL := (_extract_counter p.1).reverse }))
  else .error (.valueError ("File is not a valid XML-file: " ++ file_path))

end Altinn
namespace Altinn

mutual

/-- Structural equality test for parsed-XML values (Python `==`). -/
def Node.beq : Node → Node → Bool
  | .scalar a, .scalar b => a = b
  | .map a, .map b => beqKVs a b
  | .list a, .list b => beqElems a b
  | _, _ => false

/-- Equality of dict item lists. -/
def beqKVs : List (String × Node) → List (String × Node) → Bool
  | [], [] => true
  | (k1, v1) :: r1, (k2, v2) :: r2 => k1 = k2 && Node.beq v1 v2 && beqKVs r1 r2
  | _, _ => false

/-- Equality of list element lists. -/
def beqElems : List Node → List Node → Bool
  | [], [] => true
  | a :: r1, b :: r2 => Node.beq a b && beqElems r1 r2
  | _, _ => false

end

instance : BEq Node := ⟨Node.beq⟩

/-- Python `next(x)` applied to the `numpy.ndarray` returned by
`Series.unique()` (tabell_i_tabell.py lines 127-131): ndarrays implement
`__iter__` but not `__next__`, so `next` raises
`TypeError: 'numpy.ndarray' object is not an iterator` no matter what the
array holds. -/
def pyNext (_arr : List α) : Except PyError α :=
  .error .typeError

/-- A row of the two-column frame `table_data[["FELTNAVN", "FELTVERDI"]]`
(tabell_i_tabell.py line 60); `none` is a `np.nan` padding value. -/
structure TRow where
  FELTNAVN : String
  FELTVERDI : Option String

/-- A row of the frame returned by `transform_table_in_table`: the ISEE
columns, with `FELTVERDI` possibly a padding `NaN` (`none`). -/
structure ORow where
  SKJEMA_ID : String
  DELREG_NR : Node
  IDENT_NR : Node
  ENHETS_TYPE : Node
  FELTNAVN : String
  FELTVERDI : Option String
  VERSION_NR : Option String

/-- Case-insensitive substring test: pandas
`.str.contains(pat, case=False)` for a literal pattern. -/
def ciContains (s sub : String) : Bool :=
  containsSub (pyLower s) (pyLower sub)

/-- pandas `.str.contains("|".join(fields), case=False)`
(tabell_i_tabell.py lines 61-68): the name matches when it contains any of
the field names as a substring; an empty field list joins to the empty
pattern, which matches every name.  Field names are taken as literal text
(no regex metacharacters). -/
def containsAnyCI (fields : List String) (name : String) : Bool :=
  match fields with
  | [] => true
  | _ => fields.any (fun f => ciContains name f)

/-- Python `str.endswith(sub)`. -/
def pyEndsWith (s sub : String) : Bool :=
  sub.data.isSuffixOf s.data

/-- `name.split("_")[-1]`: the text after the last underscore
(tabell_i_tabell.py lines 69-71). -/
def lastToken (s : String) : String :=
  (pySplit s "_").getLastD ""

/-- Python `s[-3:]`: the last three characters (the whole string when it is
shorter). -/
def lastChars (k : Nat) (s : String) : String :=
  String.mk (s.data.drop (s.data.length - k))

/-- `astype(int)` on one cell: parse the decimal string or raise. -/
def pyInt (s : String) : Except PyError Int :=
  match s.data with
  | c :: rest =>
    if c = Char.ofNat 45 then
      match parseNat rest with
      | some n => .ok (-(Int.ofNat n))
      | none => .error (.valueError ("invalid literal for int(): " ++ s))
    else
      match parseNat s.data with
      | some n => .ok (Int.ofNat n)
      | none => .error (.valueError ("invalid literal for int(): " ++ s))
  | [] => .error (.valueError ("invalid literal for int(): " ++ s))

/-- Python built-in `max` over a sequence of ints: `ValueError` when the
sequence is empty. -/
def pyMax (l : List Int) : Except PyError Int :=
  match l with
  | [] => .error (.valueError "max() arg is an empty sequence")
  | x :: rest => .ok (rest.foldl max x)

/-- Setting a dict key / DataFrame column: replace in place when the key
exists, else append. -/
def setCol (cols : List (String × List (Option String))) (felt : String)
    (vals : List (Option String)) : List (String × List (Option String)) :=
  if cols.any (fun c => c.1 = felt) then
    cols.map (fun c => if c.1 = felt then (felt, vals) else c)
  else cols ++ [(felt, vals)]

/-- `max(len(values) for values in row_data.values())`
(tabell_i_tabell.py line 85): `ValueError` on an empty dict. -/
def tntMaxLen (row_data : List (String × List (Option String))) :
    Except PyError Nat :=
  match row_data.map (fun c => c.2.length) with
  | [] => .error (.valueError "max() arg is an empty sequence")
  | x :: rest => .ok (rest.foldl max x)

/-- The melt-and-suffix step (tabell_i_tabell.py lines 110-122): the frame
`test` has `max_length` physical rows numbered `current_count + i`; melting
emits, column by column, one long row per physical row with
`FELTNAVN = variable + "_" + str(lopenr).zfill(3)`. -/
def meltCols (cols : List (String × List (Option String))) (current_count : Int)
    (max_length : Nat) : List TRow :=
  cols.flatMap (fun c =>
    (List.range max_length).map (fun i =>
      { FELTNAVN := c.1 ++ "_" ++ zfill (toString (current_count + Int.ofNat i)) 3
        FELTVERDI := List.getD c.2 i none }))

/-- `flattened_table_data["FELTNAVN"].str[-3:].astype(int)`
(tabell_i_tabell.py line 106): the trailing three characters of every
accumulated name, each parsed as an int. -/
def astypeIntNames : List TRow → Except PyError (List Int)
  | [] => .ok []
  | r :: rest =>
    match pyInt (lastChars 3 r.FELTNAVN) with
    | .error e => .error e
    | .ok n =>
      match astypeIntNames rest with
      | .error e => .error e
      | .ok ns => .ok (n :: ns)

/-- The `current_count` computation (tabell_i_tabell.py lines 105-109):
the starting value while `flattened_table_data` is still the fresh
column-less frame, otherwise one more than the maximum of the trailing
three characters of the accumulated names read as ints. -/
def tntCurrentCount (counter_starting_value : Int) :
    Option (List TRow) → Except PyError Int
  | none => .ok counter_starting_value
  | some rows =>
    match astypeIntNames rows with
    | .error e => .error e
    | .ok parsed =>
      match pyMax parsed with
      | .error e => .error e
      | .ok m => .ok (m + 1)

/-- The `row_data` dict of one loop pass (tabell_i_tabell.py lines 80-84):
one key per row-level field, holding the values of the rows whose name
ends in the current `lopenr` and contains the field name. -/
def rowDataOf (df_row : List TRow) (row_fields : List String) (lopenr : String) :
    List (String × List (Option String)) :=
  row_fields.foldl (fun rd felt =>
    setCol rd felt ((df_row.filter (fun r =>
      pyEndsWith r.FELTNAVN lopenr && containsSub r.FELTNAVN felt)).map
        (fun r => r.FELTVERDI))) []

/-- The `test` frame of one loop pass (tabell_i_tabell.py lines 87-103):
the `row_data` columns padded with `NaN` to `max_length`, plus one
broadcast column per group-level field that matched exactly one value. -/
def testOf (df_meta : List TRow) (table_fields : List String) (lopenr : String)
    (row_data : List (String × List (Option String))) (max_length : Nat) :
    List (String × List (Option String)) :=
  table_fields.foldl (fun t felt =>
    match (df_meta.filter (fun r =>
      pyEndsWith r.FELTNAVN lopenr && containsSub r.FELTNAVN felt)).map
        (fun r => r.FELTVERDI) with
    | [v] => setCol t felt (List.replicate max_length v)
    | _ => t)
    (row_data.map (fun c =>
      (c.1, c.2 ++ List.replicate (max_length - c.2.length) (none : Option String))))

/-- One pass of the `for lopenr in relevante_lopenr` loop of
`transform_table_in_table` (tabell_i_tabell.py lines 76-124), with the
accumulator `flattened_table_data` as `none` while it is still the fresh
column-less `pd.DataFrame()` and `some rows` afterwards. -/
def tntLoop (df_row df_meta : List TRow) (row_fields table_fields : List String)
    (counter_starting_value : Int) :
    List String → Option (List TRow) → Except PyError (Option (List TRow))
  | [], acc => .ok acc
  | lopenr :: rest, acc =>
    match tntMaxLen (rowDataOf df_row row_fields lopenr) with
    | .error e => .error e
    | .ok max_length =>
      match tntCurrentCount counter_starting_value acc with
      | .error e => .error e
      | .ok current_count =>
        tntLoop df_row df_meta row_fields table_fields counter_starting_value
          rest (some (acc.getD [] ++
            meltCols (testOf df_meta table_fields lopenr
              (rowDataOf df_row row_fields lopenr) max_length)
              current_count max_length))

/-- The unpivot stage of `transform_table_in_table` (tabell_i_tabell.py
lines 60-124): select the group-level and per-row rows, collect the
distinct trailing repetition tokens, and run the lopenr loop; the result is
`flattened_table_data`. -/
def unpivotCore (table_data : List TRow) (table_fields row_fields : List String)
    (counter_starting_value : Int) : Except PyError (List TRow) := do
  let df_meta := table_data.filter (fun r => containsAnyCI table_fields r.FELTNAVN)
  let df_row := table_data.filter (fun r => containsAnyCI row_fields r.FELTNAVN)
  let relevante_lopenr := pyUnique (df_row.map (fun r => lastToken r.FELTNAVN))
  let df_meta2 := df_meta.filter (fun r =>
    relevante_lopenr.contains (lastToken r.FELTNAVN))
  let flatOpt ← tntLoop df_row df_meta2 row_fields table_fields
    counter_starting_value relevante_lopenr none
  .ok (flatOpt.getD [])

/-- `transform_table_in_table` (tabell_i_tabell.py lines 36-140): the
unpivot stage followed by the broadcast-column reattachment (lines
127-140), which reads each constant with `next(rest_of_data[col].unique())`
and then concatenates `rest_of_data` with the unpivoted rows. -/
def transform_table_in_table (table_data : List TRow) (rest_of_data : List IseeRow)
    (table_fields row_fields : List String) (counter_starting_value : Int) :
    Except PyError (List ORow) := do
  let flattened ← unpivotCore table_data table_fields row_fields
    counter_starting_value
  let skjema_id ← pyNext (pyUnique (rest_of_data.map (fun r => r.SKJEMA_ID)))
  let delreg_nr ← pyNext (pyUnique (rest_of_data.map (fun r => r.DELREG_NR)))
  let ident_nr ← pyNext (pyUnique (rest_of_data.map (fun r => r.IDENT_NR)))
  let enhets_type ← pyNext (pyUnique (rest_of_data.map (fun r => r.ENHETS_TYPE)))
  let version_nr ← pyNext (pyUnique (rest_of_data.map (fun r => r.VERSION_NR)))
  .ok (rest_of_data.map (fun r =>
    { SKJEMA_ID := r.SKJEMA_ID
      DELREG_NR := r.DELREG_NR
      IDENT_NR := r.IDENT_NR
      ENHETS_TYPE := r.ENHETS_TYPE
      FELTNAVN := r.FELTNAVN
      FELTVERDI := some r.FELTVERDI
      VERSION_NR := r.VERSION_NR }) ++
    flattened.map (fun r =>
      { SKJEMA_ID := skjema_id
        DELREG_NR := delreg_nr
        IDENT_NR := ident_nr
        ENHETS_TYPE := enhets_type
        FELTNAVN := r.FELTNAVN
        FELTVERDI := r.FELTVERDI
        VERSION_NR := version_nr }))

end Altinn

namespace Altinn

/-! ### Concrete inputs used by counterexamples and witnesses -/

/-- The frame of the repository unit test for `_add_lopenr`
(tests/flatten/test_add_lopenr.py): `field3` sits at level 2 with counters
`["003", "004"]`. -/
def lopenrTestDf : List WRow :=
  [{ FELTNAVN := "field1", FELTVERDI := "x", IDENT_NR := Node.scalar (some "1")
     VERSION_NR := some "v", DELREG_NR := Node.scalar (some "2")
     ENHETS_TYPE := Node.scalar (some "B"), SKJEMA_ID := "RA-1A3"
     COUNTER := [], LEVELS := 0 },
   { FELTNAVN := "field2", FELTVERDI := "x", IDENT_NR := Node.scalar (some "1")
     VERSION_NR := some "v", DELREG_NR := Node.scalar (some "2")
     ENHETS_TYPE := Node.scalar (some "B"), SKJEMA_ID := "RA-1A3"
     COUNTER := ["002"], LEVELS := 1 },
   { FELTNAVN := "field3", FELTVERDI := "x", IDENT_NR := Node.scalar (some "1")
     VERSION_NR := some "v", DELREG_NR := Node.scalar (some "2")
     ENHETS_TYPE := Node.scalar (some "B"), SKJEMA_ID := "RA-1A3"
     COUNTER := ["003", "004"], LEVELS := 2 },
   { FELTNAVN := "field4", FELTVERDI := "x", IDENT_NR := Node.scalar (some "1")
     VERSION_NR := some "v", DELREG_NR := Node.scalar (some "2")
     ENHETS_TYPE := Node.scalar (some "B"), SKJEMA_ID := "RA-1A3"
     COUNTER := ["005"], LEVELS := 0 }]

/-- The rows `_add_lopenr` produces from `lopenrTestDf`: levels 1 and 2
both get the last counter value appended, zero padded. -/
def lopenrTestOut : List WRow :=
  [{ FELTNAVN := "field1", FELTVERDI := "x", IDENT_NR := Node.scalar (some "1")
     VERSION_NR := some "v", DELREG_NR := Node.scalar (some "2")
     ENHETS_TYPE := Node.scalar (some "B"), SKJEMA_ID := "RA-1A3"
     COUNTER := [], LEVELS := 0 },
   { FELTNAVN := "field2_002", FELTVERDI := "x", IDENT_NR := Node.scalar (some "1")
     VERSION_NR := some "v", DELREG_NR := Node.scalar (some "2")
     ENHETS_TYPE := Node.scalar (some "B"), SKJEMA_ID := "RA-1A3"
     COUNTER := ["002"], LEVELS := 1 },
   { FELTNAVN := "field3_004", FELTVERDI := "x", IDENT_NR := Node.scalar (some "1")
     VERSION_NR := some "v", DELREG_NR := Node.scalar (some "2")
     ENHETS_TYPE := Node.scalar (some "B"), SKJEMA_ID := "RA-1A3"
     COUNTER := ["003", "004"], LEVELS := 2 },
   { FELTNAVN := "field4", FELTVERDI := "x", IDENT_NR := Node.scalar (some "1")
     VERSION_NR := some "v", DELREG_NR := Node.scalar (some "2")
     ENHETS_TYPE := Node.scalar (some "B"), SKJEMA_ID := "RA-1A3"
     COUNTER := ["005"], LEVELS := 0 }]

/-- A one-family table-in-table frame: one outer instance `001` with one
per-row field value. -/
def tntSmallTable : List TRow :=
  [{ FELTNAVN := "A_001", FELTVERDI := some "x" }]

/-- A fully consistent remainder frame: one row, so every broadcast column
trivially has a single unique value. -/
def tntSmallRest : List IseeRow :=
  [{ SKJEMA_ID := "RA-1A3", DELREG_NR := Node.scalar (some "2")
     IDENT_NR := Node.scalar (some "1"), ENHETS_TYPE := Node.scalar (some "B")
     FELTNAVN := "other", FELTVERDI := "v", VERSION_NR := some "ab" }]

/-- A filesystem whose only file is a malformed sidecar at a local path. -/
def fsMalformedLocal : String → FileContent :=
  fun p => if p = "meta_x.json" then FileContent.malformed else FileContent.absent

/-- A filesystem with no files at all. -/
def fsEmpty : String → FileContent :=
  fun _ => FileContent.absent

/-- A parsed document whose `InternInfo` holds `enhetsIdent` and
`enhetsType` but lacks exactly `delregNr`. -/
def docMissingDelreg : List (String × Node) :=
  [("melding", Node.map
    [("InternInfo", Node.map
      [("enhetsIdent", Node.scalar (some "111")),
       ("enhetsType", Node.scalar (some "BEDR"))])])]

/-- The checkbox row of the repository unit test
(tests/flatten/test_transform_checkbox_var.py). -/
def cbRow : WRow :=
  { FELTNAVN := "checkbox_var", FELTVERDI := "option1,option2"
    IDENT_NR := Node.scalar (some "1"), VERSION_NR := some "v"
    DELREG_NR := Node.scalar (some "2"), ENHETS_TYPE := Node.scalar (some "B")
    SKJEMA_ID := "RA-1A3", COUNTER := [], LEVELS := 0 }

/-- The two-row frame of the checkbox unit test: one matching row with two
comma-separated tokens and one other row. -/
def cbTestDf : List WRow :=
  [cbRow,
   { FELTNAVN := "other_var", FELTVERDI := "value"
     IDENT_NR := Node.scalar (some "1"), VERSION_NR := some "v"
     DELREG_NR := Node.scalar (some "2"), ENHETS_TYPE := Node.scalar (some "B")
     SKJEMA_ID := "RA-1A3", COUNTER := [], LEVELS := 0 }]

/-- A minimal parsed document for exercising `xml_transform`. -/
def xdocSmall : List (String × Node) :=
  [("root", Node.map [("a", Node.scalar (some "x"))])]

/-- The frame `xml_transform` returns on `xdocSmall`. -/
def xoutSmall : List XRow :=
  [{ FELTNAVN := "a", FELTVERDI := Node.scalar (some "x"), LEVEL := [] }]

/-- A complete well-formed submission document: full `InternInfo`, one
scalar field and one nested-mapping field under `SkjemaData`. -/
def docV : List (String × Node) :=
  [("melding", Node.map
    [("InternInfo", Node.map
      [("enhetsIdent", Node.scalar (some "123456789")),
       ("enhetsType", Node.scalar (some "BEDR")),
       ("delregNr", Node.scalar (some "12345")),
       ("raNummer", Node.scalar (some "RA-0001"))]),
     ("SkjemaData", Node.map
      [("felt1", Node.scalar (some "v1")),
       ("gruppe", Node.map [("felt2", Node.scalar (some "v2"))])])])]

/-- The first row `isee_transform` produces from `docV`. -/
def iseeRowV0 : IseeRow :=
  { SKJEMA_ID := "RA-0001A3", DELREG_NR := Node.scalar (some "12345")
    IDENT_NR := Node.scalar (some "123456789")
    ENHETS_TYPE := Node.scalar (some "BEDR")
    FELTNAVN := "felt1", FELTVERDI := "v1", VERSION_NR := some "abc" }

/-- The frame `isee_transform` produces from `docV` at path
`/form_abc.xml` with no sidecar metadata. -/
def iseeOutV : List IseeRow :=
  [iseeRowV0,
   { SKJEMA_ID := "RA-0001A3", DELREG_NR := Node.scalar (some "12345")
     IDENT_NR := Node.scalar (some "123456789")
     ENHETS_TYPE := Node.scalar (some "BEDR")
     FELTNAVN := "gruppe_felt2_001", FELTVERDI := "v2", VERSION_NR := some "abc" },
   { SKJEMA_ID := "RA-0001A3", DELREG_NR := Node.scalar (some "12345")
     IDENT_NR := Node.scalar (some "123456789")
     ENHETS_TYPE := Node.scalar (some "BEDR")
     FELTNAVN := "ANGIVER_ID", FELTVERDI := "abc", VERSION_NR := some "abc" }]

end Altinn

namespace Altinn

/-! ### Flatten-and-resolve composition and its leaf-path description -/

mutual

/-- Whether a parsed value contains no list anywhere: the documents of the
round-trip property (no repeated sibling groups). -/
def Node.noLists : Node → Bool
  | .scalar _ => true
  | .map m => noListsKVs m
  | .list _ => false

/-- `noLists` over the items of a mapping. -/
def noListsKVs : List (String × Node) → Bool
  | [] => true
  | (_, v) :: rest => v.noLists && noListsKVs rest

end

mutual

/-- The scalar leaves below one key: each with its tag path (starting at
that key) and its value.  List values carry no leaves here (they do not
occur in no-list documents). -/
def leafEntriesOf (k : String) : Node → List (List String × Option String)
  | .scalar s => [([k], s)]
  | .map m => (leafEntriesKVs m).map (fun p => (k :: p.1, p.2))
  | .list _ => []

/-- The scalar leaves of a mapping, in document order. -/
def leafEntriesKVs : List (String × Node) → List (List String × Option String)
  | [] => []
  | (k, v) :: rest => leafEntriesOf k v ++ leafEntriesKVs rest

end

/-- `d` stacked copies of the marker `£1$` that the mapping branch of
`_flatten_dict` prepends. -/
def markPref : Nat → String
  | 0 => ""
  | n + 1 => counterMark 1 ++ markPref n

/-- Tag names joined by the separator `_`. -/
def joinUnd : List String → String
  | [] => ""
  | [t] => t
  | t :: rest => t ++ "_" ++ joinUnd rest

/-- `new_key` accumulation of `_flatten_dict` along a tag path below the
prefix `parent`: empty prefixes vanish (flatten.py line 59). -/
def joinP (parent : String) (path : List String) : String :=
  if parent = "" then joinUnd path else parent ++ "_" ++ joinUnd path

/-- A row of the working frame carrying only the columns the counter
resolution touches. -/
structure RRow where
  FELTNAVN : String
  FELTVERDI : Node
  COUNTER : List String
  LEVELS : Nat

/-- The counter-resolution steps applied to one flattened entry, exactly as
the pipeline does: extract the counters and strip the markers plus
whitespace (flatten.py lines 513-514), compute the level (line 517), and
append the `_add_lopenr` suffix of the last counter to rows at level ≥ 1
(lines 229-232; the counter list is non-empty exactly when the level is
positive). -/
def resolveEntry (k : String) (v : Node) : RRow :=
  let counter := _extract_counter k
  let level := _create_levels_col counter
  let clean := pyStrip (stripCounters k)
  { FELTNAVN := if level > 0 then clean ++ "_" ++ zfill (counter.getLastD "") 3
      else clean
    FELTVERDI := v
    COUNTER := counter
    LEVELS := level }

/-- Flattening followed by counter resolution: `_flatten_dict` as
`_parse_tag_elements` invokes it, then the resolution columns. -/
def flattenAndResolve (d : List (String × Node)) : List RRow :=
  (_flatten_dict d "" "_").map (fun p => resolveEntry p.1 p.2)

/-- Stated from the claim, for comparison: the row the resolution should
produce for a leaf with the given tag path — one row per leaf; a leaf
nested below `path.length - 1` mapping values carries that many counters
(each `"1"`), level `min (path.length - 1) 2`, and the `_`-joined path as
name, suffixed with `_001` exactly when some counter exists. -/
def expectedRow (path : List String) (v : Option String) : RRow :=
  { FELTNAVN := joinUnd path ++ (if path.length = 1 then "" else "_001")
    FELTVERDI := Node.scalar v
    COUNTER := List.replicate (path.length - 1) "1"
    LEVELS := min (path.length - 1) 2 }

/-- A no-list document with distinct flattened paths: one nested leaf and
one top-level leaf. -/
def docLin : List (String × Node) :=
  [("a", Node.map [("b", Node.scalar (some "x"))]),
   ("c", Node.scalar (some "y"))]

/-- A document with two distinct leaves whose flattened paths collide:
`a -> b_c` and `a_b -> c` both flatten to the key `£1$a_b_c`. -/
def docCollide : List (String × Node) :=
  [("a", Node.map [("b_c", Node.scalar (some "x"))]),
   ("a_b", Node.map [("c", Node.scalar (some "t"))])]

/-- Invariant of the accumulated `flattened_table_data`: a fresh frame
means the running numbers used so far top out at `start - 1`; an
accumulated frame has every name of the shape
`base + "_" + str(n).zfill(3)` with `start ≤ n ≤ hi`, and, unless empty,
some name carrying `hi` itself. -/
def AccInv (start hi : Int) : Option (List TRow) → Prop
  | none => hi = start - 1
  | some rows =>
    (∀ r ∈ rows, ∃ base n, r.FELTNAVN = base ++ "_" ++ zfill (toString n) 3 ∧
      start ≤ n ∧ n ≤ hi) ∧
    (rows = [] ∨ ∃ r ∈ rows, ∃ base,
      r.FELTNAVN = base ++ "_" ++ zfill (toString hi) 3)

/-- A one-row, one-instance table-in-table frame for the running-number
witness. -/
def tntWTable : List TRow :=
  [{ FELTNAVN := "A_001", FELTVERDI := some "x" }]

/-- The unpivoted rows of the first witness call (start 1). -/
def tntW1 : List TRow :=
  [{ FELTNAVN := "A_001", FELTVERDI := some "x" }]

/-- The unpivoted rows of the second witness call (start 2). -/
def tntW2 : List TRow :=
  [{ FELTNAVN := "A_002", FELTVERDI := some "x" }]

/-! ### General lemmas about the embedded operations -/

theorem exceptBind_ok {e1 : Except PyError A} {a : A} {f : A → Except PyError B}
    (h : e1 = .ok a) : (e1 >>= f) = f a := by rw [h]; rfl

theorem exceptBind_error {e1 : Except PyError A} {er : PyError}
    {f : A → Except PyError B} (h : e1 = .error er) :
    (e1 >>= f) = .error er := by rw [h]; rfl

theorem pyUniqueGo_mem (x : String) :
    ∀ (l seen : List String), x ∈ pyUniqueGo seen l ↔ (x ∈ l ∧ x ∉ seen) := by
  intro l
  induction l with
  | nil => intro seen; simp [pyUniqueGo]
  | cons y rest ih =>
    intro seen
    rw [pyUniqueGo]
    by_cases hs : seen.contains y
    · rw [if_pos hs]
      rw [ih seen]
      have hy : y ∈ seen := by simpa using hs
      constructor
      · rintro ⟨h1, h2⟩
        exact ⟨List.mem_cons_of_mem _ h1, h2⟩
      · rintro ⟨h1, h2⟩
        rcases List.mem_cons.mp h1 with h1 | h1
        · exact absurd (h1 ▸ hy) h2
        · exact ⟨h1, h2⟩
    · rw [if_neg hs]
      have hy : y ∉ seen := by simpa using hs
      simp only [List.mem_cons]
      rw [ih (y :: seen)]
      constructor
      · rintro (rfl | ⟨h1, h2⟩)
        · exact ⟨Or.inl rfl, hy⟩
        · exact ⟨Or.inr h1, fun hm => h2 (List.mem_cons_of_mem _ hm)⟩
      · rintro ⟨h1, h2⟩
        by_cases hxy : x = y
        · exact Or.inl hxy
        · right
          rcases h1 with h1 | h1
          · exact absurd h1 hxy
          · refine ⟨h1, fun hm => ?_⟩
            rcases List.mem_cons.mp hm with hm | hm
            · exact hxy hm
            · exact h2 hm

theorem pyUnique_mem (x : String) (l : List String) :
    x ∈ pyUnique l ↔ x ∈ l := by
  rw [pyUnique, pyUniqueGo_mem]
  simp

theorem lopenrRows_ok {df out : List WRow} (h : lopenrRows df = .ok out) :
    out.length = df.length ∧
      ∀ i (h1 : i < df.length) (h2 : i < out.length),
        lopenrRow (df.get ⟨i, h1⟩) = .ok (out.get ⟨i, h2⟩) := by
  induction df generalizing out with
  | nil =>
    simp only [lopenrRows] at h
    cases h
    exact ⟨rfl, fun i h1 _ => absurd h1 (by simp)⟩
  | cons r rest ih =>
    rw [lopenrRows] at h
    cases hr : lopenrRow r with
    | error e => rw [exceptBind_error hr] at h; cases h
    | ok r2 =>
      rw [exceptBind_ok hr] at h
      cases hrest : lopenrRows rest with
      | error e => rw [exceptBind_error hrest] at h; cases h
      | ok rest2 =>
        rw [exceptBind_ok hrest] at h
        cases h
        obtain ⟨hlen, hget⟩ := ih hrest
        refine ⟨by simp [hlen], ?_⟩
        intro i h1 h2
        match i with
        | 0 => simpa using hr
        | Nat.succ j =>
          simp only [List.get_cons_succ]
          exact hget j (by simpa using h1) (by simpa using h2)

end Altinn
namespace Altinn

theorem lookup_mem {l : List (String × String)} {k v : String}
    (h : List.lookup k l = some v) : (k, v) ∈ l := by
  induction l with
  | nil => cases h
  | cons p rest ih =>
    obtain ⟨k1, v1⟩ := p
    by_cases hk : k = k1
    · subst hk
      simp only [List.lookup, beq_self_eq_true] at h
      cases h
      exact List.mem_cons_self _ _
    · have hbeq : (k == k1) = false := by simpa using hk
      simp only [List.lookup, hbeq] at h
      exact List.mem_cons_of_mem _ (ih h)

/-- C2: refuted as stated.  On the repository's own `_add_lopenr` unit-test
frame, the level-2 row `field3` (counters `["003", "004"]`) does NOT stay
unsuffixed: it becomes `field3_004`, because the loop suffixes every row
with `LEVELS > 0`, not only level 1.  The diagnostic does list its family
name. -/
theorem add_lopenr_suffixes_level2 :
    Except.map (fun p => ((p.1.map (fun r => r.FELTNAVN), p.2)))
        (_add_lopenr lopenrTestDf) =
      Except.ok ((["field1", "field2_002", "field3_004", "field4"], ["field3"])) ∧
    "field3_004" ≠ "field3" := by
  constructor
  · rfl
  · decide

/-- C2 (amended): `_add_lopenr` appends `"_" + counter[-1].zfill(3)` to
every row at level ≥ 1 — the zero-padded 3-digit suffix of the last counter
value is applied to level-1 AND level-2 rows alike; level-0 rows are
unchanged; the printed non-fatal diagnostic lists exactly the field-name
families of rows at level ≥ 2. -/
theorem add_lopenr_spec (df out : List WRow) (printed : List String)
    (h : _add_lopenr df = .ok (out, printed)) :
    out.length = df.length ∧
    (∀ i (h1 : i < df.length) (h2 : i < out.length),
      ((df.get ⟨i, h1⟩).LEVELS = 0 → out.get ⟨i, h2⟩ = df.get ⟨i, h1⟩) ∧
      (∀ last, 0 < (df.get ⟨i, h1⟩).LEVELS →
        (df.get ⟨i, h1⟩).COUNTER.getLast? = some last →
        out.get ⟨i, h2⟩ = { df.get ⟨i, h1⟩ with
          FELTNAVN := (df.get ⟨i, h1⟩).FELTNAVN ++ "_" ++ zfill last 3 })) ∧
    (∀ name, name ∈ printed ↔ ∃ r ∈ df, 1 < r.LEVELS ∧ r.FELTNAVN = name) := by
  unfold _add_lopenr at h
  cases hrows : lopenrRows df with
  | error e => rw [exceptBind_error hrows] at h; cases h
  | ok rows =>
    rw [exceptBind_ok hrows] at h
    cases h
    obtain ⟨hlen, hget⟩ := lopenrRows_ok hrows
    refine ⟨hlen, ?_, ?_⟩
    · intro i h1 h2
      have hrow := hget i h1 h2
      constructor
      · intro hl0
        rw [lopenrRow, hl0] at hrow
        simp only [Nat.lt_irrefl, if_false] at hrow
        exact (Except.ok.inj hrow).symm
      · intro last hpos hlast
        rw [lopenrRow, if_pos hpos, hlast] at hrow
        exact (Except.ok.inj hrow).symm
    · intro name
      rw [pyUnique_mem]
      constructor
      · intro hmem
        obtain ⟨r, hr, hname⟩ := List.mem_map.mp hmem
        have := List.mem_filter.mp hr
        refine ⟨r, this.1, by simpa using this.2, hname⟩
      · rintro ⟨r, hr, hlev, hname⟩
        exact List.mem_map.mpr ⟨r, List.mem_filter.mpr ⟨hr, by simpa using hlev⟩, hname⟩

/-- The `_add_lopenr` specification observed on the unit-test frame. -/
theorem add_lopenr_spec_witness :
    _add_lopenr lopenrTestDf = .ok (lopenrTestOut, ["field3"]) ∧
    lopenrTestOut.length = lopenrTestDf.length :=
  ⟨rfl, (add_lopenr_spec lopenrTestDf lopenrTestOut ["field3"] rfl).1⟩

/-- C4: refuted as stated.  A call with a fully consistent `rest_of_data`
(every broadcast column holds exactly one distinct value) does not succeed:
the reattachment step raises `TypeError`, because `next()` is applied to
the `numpy.ndarray` returned by `Series.unique()`. -/
theorem transform_table_in_table_counterexample :
    transform_table_in_table tntSmallTable tntSmallRest ["B"] ["A"] 1 =
      .error .typeError ∧
    (pyUnique (tntSmallRest.map (fun r => r.SKJEMA_ID))).length = 1 ∧
    (pyUnique (tntSmallRest.map (fun r => r.DELREG_NR))).length = 1 ∧
    (pyUnique (tntSmallRest.map (fun r => r.IDENT_NR))).length = 1 ∧
    (pyUnique (tntSmallRest.map (fun r => r.ENHETS_TYPE))).length = 1 ∧
    (pyUnique (tntSmallRest.map (fun r => r.VERSION_NR))).length = 1 := by
  exact ⟨rfl, rfl, rfl, rfl, rfl, rfl⟩

/-- C4 (amended): `transform_table_in_table` never reattaches the five
broadcast columns and never returns: whatever the inputs, it raises — the
reattachment reads each constant with `next(rest_of_data[col].unique())`,
and `next` on a numpy array raises `TypeError` unconditionally, so no
consistency across `rest_of_data` is ever checked (no
`InconsistentBroadcastError` exists in the code). -/
theorem transform_table_in_table_always_raises (table_data : List TRow)
    (rest_of_data : List IseeRow) (table_fields row_fields : List String)
    (start : Int) :
    ∃ e, transform_table_in_table table_data rest_of_data table_fields
      row_fields start = .error e := by
  cases h : unpivotCore table_data table_fields row_fields start with
  | error e =>
    exact ⟨e, by unfold transform_table_in_table; rw [exceptBind_error h]⟩
  | ok flat =>
    refine ⟨.typeError, ?_⟩
    unfold transform_table_in_table
    rw [exceptBind_ok h]
    rw [exceptBind_error (show pyNext (pyUnique (rest_of_data.map
      (fun r => r.SKJEMA_ID))) = .error .typeError from rfl)]

/-- C6: refuted as stated.  For a local (non-`gs://`) submission path whose
sidecar JSON is malformed, `_attach_metadata` does not degrade gracefully:
the `json.load` of the local branch is not wrapped in a handler, so the
`JSONDecodeError` propagates to the caller. -/
theorem attach_metadata_counterexample :
    is_gcs (metaPath "form_x.xml") = false ∧
    fsMalformedLocal (metaPath "form_x.xml") = .malformed ∧
    _attach_metadata fsMalformedLocal id "form_x.xml" = .error .jsonDecodeError := by
  exact ⟨rfl, rfl, rfl⟩

/-- C6 (amended): metadata attachment degrades gracefully — empty metadata,
no rows, no exception — when the sidecar is absent (local or remote) and
when it is malformed on a remote `gs://` path; a malformed sidecar at a
LOCAL path instead raises `JSONDecodeError` to the caller. -/
theorem attach_metadata_spec (fs : String → FileContent) (oslo : String → String)
    (file_path : String) :
    (fs (metaPath file_path) = .absent →
      _attach_metadata fs oslo file_path = .ok []) ∧
    (is_gcs (metaPath file_path) = true → fs (metaPath file_path) = .malformed →
      _attach_metadata fs oslo file_path = .ok []) ∧
    (is_gcs (metaPath file_path) = false → fs (metaPath file_path) = .malformed →
      _attach_metadata fs oslo file_path = .error .jsonDecodeError) := by
  refine ⟨?_, ?_, ?_⟩
  · intro h
    have hread : _read_json_meta fs file_path = .ok none := by
      unfold _read_json_meta
      by_cases hg : is_gcs (metaPath file_path) = true <;> simp [hg, h]
    unfold _attach_metadata
    rw [exceptBind_ok hread]
  · intro hg h
    have hread : _read_json_meta fs file_path = .ok none := by
      unfold _read_json_meta
      simp [hg, h]
    unfold _attach_metadata
    rw [exceptBind_ok hread]
  · intro hg h
    have hread : _read_json_meta fs file_path = .error .jsonDecodeError := by
      unfold _read_json_meta
      simp [hg, h]
    unfold _attach_metadata
    rw [exceptBind_error hread]

/-- Graceful degradation observed at a concrete absent-sidecar input. -/
theorem attach_metadata_spec_witness :
    _attach_metadata fsEmpty id "form_w.xml" = .ok [] :=
  (attach_metadata_spec fsEmpty id "form_w.xml").1 rfl

/-- C8: refuted as stated.  With the mapping `{a: b, b: c}` on the
single-name record table `["a"]`, one application of the Field Mapper gives
`["b"]` but a second application gives `["c"]`: a mapping value that is
itself a key is re-replaced, so double application differs from single. -/
theorem field_mapper_not_idempotent :
    ((["a"].map (seriesReplace [("a", "b"), ("b", "c")])).map
        (seriesReplace [("a", "b"), ("b", "c")]) ≠
      ["a"].map (seriesReplace [("a", "b"), ("b", "c")])) ∧
    ["a"].map (seriesReplace [("a", "b"), ("b", "c")]) = ["b"] ∧
    ((["a"].map (seriesReplace [("a", "b"), ("b", "c")])).map
        (seriesReplace [("a", "b"), ("b", "c")])) = ["c"] := by
  exact ⟨by decide, rfl, rfl⟩

/-- C8 (amended): each application of the Field Mapper is a single
non-cumulative pass that replaces a name equal to a mapping key by its
value, leaves other names unchanged, and preserves row order and row count
exactly; applying it twice equals applying it once provided no mapping
value is itself remapped to something different (in particular whenever no
value is also a key). -/
theorem field_mapper_spec (mapping : List (String × String))
    (hm : ∀ p ∈ mapping, List.lookup p.2 mapping = none ∨
      List.lookup p.2 mapping = some p.2)
    (names : List String) :
    (names.map (seriesReplace mapping)).map (seriesReplace mapping) =
      names.map (seriesReplace mapping) ∧
    (names.map (seriesReplace mapping)).length = names.length ∧
    (∀ s, List.lookup s mapping = none → seriesReplace mapping s = s) := by
  have hpt : ∀ s, seriesReplace mapping (seriesReplace mapping s) =
      seriesReplace mapping s := by
    intro s
    cases hl : List.lookup s mapping with
    | none => simp [seriesReplace, hl]
    | some v =>
      rcases hm (s, v) (lookup_mem hl) with h2 | h2 <;>
        simp [seriesReplace, hl, h2]
  refine ⟨?_, by simp, fun s hs => by simp [seriesReplace, hs]⟩
  induction names with
  | nil => rfl
  | cons a t ih => simp only [List.map_cons, hpt a, ih]

/-- Idempotence observed for a concrete mapping with no value that is also
a key. -/
theorem field_mapper_spec_witness :
    (["x", "z"].map (seriesReplace [("x", "y")])).map
        (seriesReplace [("x", "y")]) =
      ["x", "z"].map (seriesReplace [("x", "y")]) :=
  (field_mapper_spec [("x", "y")] (by decide) ["x", "z"]).1

end Altinn
namespace Altinn

theorem missingKeysGo_map (ii : List (String × Node)) :
    ∀ ks : List String, missingKeysGo (Node.map ii) ks =
      .ok (ks.filter (fun k => !(ii.any (fun p => p.1 = k)))) := by
  intro ks
  induction ks with
  | nil => rfl
  | cons k rest ih =>
    rw [missingKeysGo]
    rw [exceptBind_ok
      (show pyIn k (Node.map ii) = .ok (ii.any (fun p => p.1 = k)) from rfl)]
    rw [exceptBind_ok ih]
    by_cases hb : ii.any (fun p => p.1 = k) <;> simp [hb, List.filter_cons]

/-- C7: refuted as stated.  On a document whose `InternInfo` lacks exactly
`delregNr`, the diagnostic printed by `_validate_interninfo` does list
exactly `["delregNr"]`, but the raised error's message is a fixed string
that also names `enhetsIdent` and `enhetsType` — keys that are NOT absent —
so the raised error does not list exactly the absent keys. -/
theorem validate_file_counterexample :
    _validate_interninfo docMissingDelreg = .ok (false, ["delregNr"]) ∧
    _validate_file true docMissingDelreg "p.xml" =
      .error (.valueError (missingKeysMsg "p.xml")) ∧
    containsSub (missingKeysMsg "p.xml") "enhetsIdent" = true ∧
    containsSub (missingKeysMsg "p.xml") "enhetsType" = true ∧
    isee_transform true docMissingDelreg fsEmpty id "p.xml" [] ["SkjemaData"]
      [] false = .error (.valueError (missingKeysMsg "p.xml")) := by
  exact ⟨rfl, rfl, rfl, rfl, rfl⟩

/-- C7 (amended): for a well-formed document whose `InternInfo` mapping
lacks one or more of the three required keys, `_validate_interninfo`
returns (and prints) exactly the missing keys as its diagnostic, while
`_validate_file` raises a `ValueError` whose message names the file path
together with all three required key names (whichever of them are absent),
and `isee_transform` propagates that error, so no output rows are
produced. -/
theorem validate_file_spec (r0 : String) (rm tl ii : List (String × Node))
    (file_path : String)
    (hii : rm.lookup "InternInfo" = some (Node.map ii))
    (hmiss : required_keys.filter (fun k => !(ii.any (fun p => p.1 = k))) ≠ []) :
    _validate_interninfo ((r0, Node.map rm) :: tl) =
      .ok (false, required_keys.filter (fun k => !(ii.any (fun p => p.1 = k)))) ∧
    _validate_file true ((r0, Node.map rm) :: tl) file_path =
      .error (.valueError (missingKeysMsg file_path)) ∧
    (∀ fs oslo mapping tags cbs uc,
      isee_transform true ((r0, Node.map rm) :: tl) fs oslo file_path mapping
        tags cbs uc = .error (.valueError (missingKeysMsg file_path))) := by
  have h1 : _validate_interninfo ((r0, Node.map rm) :: tl) =
      .ok (false, required_keys.filter (fun k => !(ii.any (fun p => p.1 = k)))) := by
    show ((rm.lookup "InternInfo").getD (Node.map [])
        |> fun intern_info => (missingKeysGo intern_info required_keys) >>=
          fun missing_keys =>
            if missing_keys.isEmpty then .ok (true, [])
            else .ok (false, missing_keys)) = _
    rw [hii]
    simp only [Option.getD_some]
    rw [exceptBind_ok (missingKeysGo_map ii required_keys)]
    cases hm : required_keys.filter (fun k => !(ii.any (fun p => p.1 = k))) with
    | nil => exact absurd hm hmiss
    | cons a t => rfl
  have h2 : _validate_file true ((r0, Node.map rm) :: tl) file_path =
      .error (.valueError (missingKeysMsg file_path)) := by
    show (_validate_interninfo ((r0, Node.map rm) :: tl) >>= fun r =>
      if r.1 then .ok () else .error (.valueError (missingKeysMsg file_path))) = _
    rw [exceptBind_ok h1]
    rfl
  refine ⟨h1, h2, ?_⟩
  intro fs oslo mapping tags cbs uc
  unfold isee_transform
  rw [h2]

/-- The required-field failure observed on the concrete document lacking
only `delregNr`. -/
theorem validate_file_spec_witness :
    _validate_file true docMissingDelreg "w.xml" =
      .error (.valueError (missingKeysMsg "w.xml")) :=
  (validate_file_spec "melding"
    [("InternInfo", Node.map
      [("enhetsIdent", Node.scalar (some "111")),
       ("enhetsType", Node.scalar (some "BEDR"))])]
    []
    [("enhetsIdent", Node.scalar (some "111")),
     ("enhetsType", Node.scalar (some "BEDR"))]
    "w.xml" rfl (by decide)).2.1

theorem checkbox_filter_partition (var : String) (df : List WRow) :
    (df.filter (fun x => x.FELTNAVN = var)).length +
      (df.filter (fun x => x.FELTNAVN ≠ var)).length = df.length := by
  induction df with
  | nil => rfl
  | cons a t ih =>
    simp only [decide_not] at ih ⊢
    by_cases ha : a.FELTNAVN = var <;> simp [List.filter_cons, ha] <;> omega

/-- C3: the Checkbox Expander conserves row counts.  If exactly one row of
the frame carries the checkbox field name and its value splits into the
comma tokens of `_split_string`, the result is the non-matching rows
followed by one new row per token (named `checkbox_var + token`, or just
`token` under `unique_code`, valued `new_value`), so `N` non-matching rows
and `k` tokens give exactly `N + k` rows. -/
theorem transform_checkbox_var_count (df : List WRow) (var : String)
    (uc : Bool) (nv : String) (r : WRow)
    (h : df.filter (fun x => x.FELTNAVN = var) = [r]) :
    _transform_checkbox_var df var uc nv =
      df.filter (fun x => x.FELTNAVN ≠ var) ++
        (_split_string r.FELTVERDI).map (fun value =>
          if uc = false then
            { r with FELTNAVN := var ++ value, FELTVERDI := nv }
          else { r with FELTNAVN := value, FELTVERDI := nv }) ∧
    (_transform_checkbox_var df var uc nv).length =
      (df.length - 1) + (_split_string r.FELTVERDI).length := by
  have hr : r ∈ df.filter (fun x => x.FELTNAVN = var) := by rw [h]; simp
  have hmem := List.mem_filter.mp hr
  have hany : df.any (fun x => x.FELTNAVN = var) = true :=
    List.any_eq_true.mpr ⟨r, hmem.1, hmem.2⟩
  have heq : _transform_checkbox_var df var uc nv =
      df.filter (fun x => x.FELTNAVN ≠ var) ++
        (_split_string r.FELTVERDI).map (fun value =>
          if uc = false then
            { r with FELTNAVN := var ++ value, FELTVERDI := nv }
          else { r with FELTNAVN := value, FELTVERDI := nv }) := by
    rw [_transform_checkbox_var, if_pos hany, h]
    simp [List.flatMap]
  refine ⟨heq, ?_⟩
  rw [heq]
  have hpart := checkbox_filter_partition var df
  rw [h] at hpart
  simp only [List.length_append, List.length_map, List.length_cons,
    List.length_nil] at hpart ⊢
  omega

/-- Row-count conservation observed on the unit-test frame: one other row
plus two tokens give three rows. -/
theorem transform_checkbox_var_count_witness :
    (_transform_checkbox_var cbTestDf "checkbox_var" false "1").length =
      (cbTestDf.length - 1) + (_split_string cbRow.FELTVERDI).length :=
  (transform_checkbox_var_count cbTestDf "checkbox_var" false "1" cbRow rfl).2

/-- C10: in every frame returned by `xml_transform`, the `LEVEL` cell of a
row is the reverse of the counter-marker values extracted left to right
from that row's raw flattened path — a list of strings, empty for
unrepeated fields, not a 0/1/2 level — while `FELTNAVN` is the raw path
with the markers stripped, and `FELTVERDI` is the raw value. -/
theorem xml_transform_level_spec (r0 : String) (m tl : List (String × Node))
    (fp : String) (out : List XRow)
    (h : xml_transform true ((r0, Node.map m) :: tl) fp = .ok out) :
    out.length = (_flatten_dict m "" "_").length ∧
    ∀ i (h1 : i < out.length) (h2 : i < (_flatten_dict m "" "_").length),
      (out.get ⟨i, h1⟩).LEVEL =
        (_extract_counter ((_flatten_dict m "" "_").get ⟨i, h2⟩).1).reverse ∧
      (out.get ⟨i, h1⟩).FELTNAVN =
        stripCounters ((_flatten_dict m "" "_").get ⟨i, h2⟩).1 ∧
      (out.get ⟨i, h1⟩).FELTVERDI = ((_flatten_dict m "" "_").get ⟨i, h2⟩).2 := by
  have hred : xml_transform true ((r0, Node.map m) :: tl) fp =
      .ok ((_flatten_dict m "" "_").map (fun p =>
        { FELTNAVN := stripCounters p.1
          FELTVERDI := p.2
          LEVEL := (_extract_counter p.1).reverse })) := rfl
  rw [hred] at h
  have hout := Except.ok.inj h
  subst hout
  refine ⟨by simp, ?_⟩
  intro i h1 h2
  simp [List.get_eq_getElem, List.getElem_map]

/-- The `xml_transform` level invariant observed on a one-field document. -/
theorem xml_transform_level_spec_witness :
    xoutSmall.length =
      (_flatten_dict [("a", Node.scalar (some "x"))] "" "_").length :=
  (xml_transform_level_spec "root" [("a", Node.scalar (some "x"))] [] "f.xml"
    xoutSmall rfl).1

end Altinn

namespace Altinn

theorem exceptBind_ok_inv {e1 : Except PyError A} {f : A → Except PyError B}
    {b : B} (h : (e1 >>= f) = .ok b) : ∃ a, e1 = .ok a ∧ f a = .ok b := by
  cases e1 with
  | error e => rw [exceptBind_error rfl] at h; cases h
  | ok a =>
    refine ⟨a, rfl, ?_⟩
    rw [exceptBind_ok rfl] at h
    exact h

theorem replaceNL_no_newline (s : String) : '\n' ∉ (replaceNL s).data := by
  intro hmem
  simp only [replaceNL, List.mem_map] at hmem
  obtain ⟨c, -, hc⟩ := hmem
  by_cases h : c = '\n' <;> simp [h] at hc

theorem add_interninfo_columns_no_newline {rows : List ARow} {content : Node}
    {file_path : String} {out : List WRow}
    (h : _add_interninfo_columns rows content file_path = .ok out) :
    ∀ r ∈ out, '\n' ∉ r.FELTVERDI.data := by
  unfold _add_interninfo_columns at h
  repeat split at h
  all_goals cases h
  intro r hr
  obtain ⟨r0, -, hr⟩ := List.mem_map.mp hr
  rw [← hr]
  exact replaceNL_no_newline _

theorem transform_checkbox_var_no_newline {df : List WRow} {var : String}
    {uc : Bool}
    (hdf : ∀ r ∈ df, '\n' ∉ r.FELTVERDI.data) :
    ∀ r ∈ _transform_checkbox_var df var uc "1", '\n' ∉ r.FELTVERDI.data := by
  intro r hr
  rw [_transform_checkbox_var] at hr
  by_cases hany : df.any (fun x => x.FELTNAVN = var)
  · rw [if_pos hany] at hr
    rcases List.mem_append.mp hr with hr | hr
    · exact hdf r (List.mem_filter.mp hr).1
    · obtain ⟨r0, -, hr⟩ := List.mem_flatMap.mp hr
      obtain ⟨v, -, hr⟩ := List.mem_map.mp hr
      by_cases huc : uc = false <;> simp [huc] at hr <;> rw [← hr] <;> simp
  · rw [if_neg hany] at hr
    exact hdf r hr

theorem checkbox_fold_no_newline {df : List WRow} {uc : Bool}
    (cbs : List String)
    (hdf : ∀ r ∈ df, '\n' ∉ r.FELTVERDI.data) :
    ∀ r ∈ cbs.foldl (fun d v => _transform_checkbox_var d v uc "1") df,
      '\n' ∉ r.FELTVERDI.data := by
  induction cbs generalizing df with
  | nil => exact hdf
  | cons v rest ih =>
    exact ih (transform_checkbox_var_no_newline hdf)

theorem lopenrRows_no_newline {df out : List WRow}
    (h : lopenrRows df = .ok out)
    (hdf : ∀ r ∈ df, '\n' ∉ r.FELTVERDI.data) :
    ∀ r ∈ out, '\n' ∉ r.FELTVERDI.data := by
  obtain ⟨hlen, hget⟩ := lopenrRows_ok h
  intro r hr
  obtain ⟨⟨i, hi⟩, hr⟩ := List.mem_iff_get.mp hr
  have hi2 : i < df.length := by omega
  have hrow := hget i hi2 hi
  have hv : (out.get ⟨i, hi⟩).FELTVERDI = (df.get ⟨i, hi2⟩).FELTVERDI := by
    rw [lopenrRow] at hrow
    by_cases hl : (df.get ⟨i, hi2⟩).LEVELS > 0
    · rw [if_pos hl] at hrow
      cases hlast : (df.get ⟨i, hi2⟩).COUNTER.getLast? with
      | some last =>
        rw [hlast] at hrow
        rw [← Except.ok.inj hrow]
      | none => rw [hlast] at hrow; cases hrow
    · rw [if_neg hl] at hrow
      rw [← Except.ok.inj hrow]
  rw [← hr, hv]
  exact hdf _ (List.get_mem df _ _)

end Altinn
namespace Altinn

/-- C9: in every frame returned by `isee_transform`, no `FELTVERDI` cell
contains a newline: values drawn from the XML body, the sidecar metadata
and the `ANGIVER_ID` row are stringified (`astype(str)`, nulls rendered as
their string form) with every newline replaced by a space, and rows created
later by checkbox expansion carry the fixed value `"1"`, while the mapping
and running-number steps never touch `FELTVERDI`. -/
theorem isee_transform_no_newline (xmlValid : Bool)
    (xml_dict : List (String × Node)) (fs : String → FileContent)
    (oslo : String → String) (file_path : String)
    (mapping : List (String × String)) (tag_list : List String)
    (checkbox_vars : List String) (unique_code : Bool) (out : List IseeRow)
    (h : isee_transform xmlValid xml_dict fs oslo file_path mapping tag_list
      checkbox_vars unique_code = .ok out) :
    ∀ r ∈ out, '\n' ∉ r.FELTVERDI.data := by
  unfold isee_transform at h
  cases hval : _validate_file xmlValid xml_dict file_path with
  | error e => rw [hval] at h; simp at h
  | ok u =>
    rw [hval] at h
    dsimp only at h
    cases xml_dict with
    | nil => simp at h
    | cons hd tl =>
      obtain ⟨r0, content⟩ := hd
      dsimp only at h
      cases hparse : _parse_tag_elements content tag_list with
      | error e => rw [hparse] at h; simp at h
      | ok parsed =>
        rw [hparse] at h
        dsimp only at h
        cases hmeta : _attach_metadata fs oslo file_path with
        | error e => rw [hmeta] at h; simp at h
        | ok meta =>
          rw [hmeta] at h
          dsimp only at h
          cases hcols : _add_interninfo_columns
              (parsed ++ meta ++ [_make_angiver_row_df file_path]) content
              file_path with
          | error e => rw [hcols] at h; simp at h
          | ok withCols =>
            rw [hcols] at h
            dsimp only at h
            cases hlop : _add_lopenr ((checkbox_vars.foldl
                (fun df v => _transform_checkbox_var df v unique_code "1")
                withCols).map
                (fun r => { r with FELTNAVN := seriesReplace mapping r.FELTNAVN })) with
            | error e => rw [hlop] at h; simp at h
            | ok res =>
              rw [hlop] at h
              dsimp only at h
              obtain rfl := (Except.ok.inj h).symm
              intro r hr
              obtain ⟨r1, hr1, hrq⟩ := List.mem_map.mp hr
              rw [← hrq]
              unfold _add_lopenr at hlop
              dsimp only at hlop
              obtain ⟨rows, hrows, hpure⟩ := exceptBind_ok_inv hlop
              have hres : res.1 = rows := by
                rw [← Except.ok.inj hpure]
              have h1 := add_interninfo_columns_no_newline hcols
              have h2 := @checkbox_fold_no_newline withCols unique_code
                checkbox_vars h1
              have h3 : ∀ rr ∈ (checkbox_vars.foldl
                  (fun df v => _transform_checkbox_var df v unique_code "1")
                  withCols).map
                  (fun r => { r with FELTNAVN := seriesReplace mapping r.FELTNAVN }),
                  '\n' ∉ rr.FELTVERDI.data := by
                intro rr hrr
                obtain ⟨rr0, hrr0, hrrq⟩ := List.mem_map.mp hrr
                rw [← hrrq]
                exact h2 rr0 hrr0
              have h4 := lopenrRows_no_newline hrows h3
              rw [hres] at hr1
              exact h4 r1 hr1

/-- The newline-free invariant observed on the concrete `docV` run. -/
theorem isee_transform_no_newline_witness :
    isee_transform true docV fsEmpty id "/form_abc.xml" [] ["SkjemaData"] []
      false = .ok iseeOutV ∧
    '\n' ∉ ("v1" : String).data :=
  ⟨rfl,
    isee_transform_no_newline true docV fsEmpty id "/form_abc.xml" []
      ["SkjemaData"] [] false iseeOutV rfl iseeRowV0
      (by unfold iseeOutV; exact List.mem_cons_self _ _)⟩

end Altinn
namespace Altinn

theorem counterMark_one_data : (counterMark 1).data = ['£', '1', '$'] := rfl

theorem markPref_snoc (n : Nat) :
    markPref n ++ counterMark 1 = markPref (n + 1) := by
  induction n with
  | zero => rfl
  | succ n ih =>
    rw [markPref, String.append_assoc, ih]
    rfl

theorem markPref_data (n : Nat) :
    (markPref (n + 1)).data = '£' :: '1' :: '$' :: (markPref n).data := by
  rw [markPref, String.data_append, counterMark_one_data]
  rfl

theorem extract_no_pound : ∀ l : List Char, (∀ ch ∈ l, ch ≠ '£') →
    extractCounterGo l none = [] := by
  intro l h
  induction l with
  | nil => rfl
  | cons c rest ih =>
    rw [extractCounterGo, if_neg (by simpa using h c (by simp))]
    exact ih (fun ch hch => h ch (List.mem_cons_of_mem _ hch))

theorem extract_markPref : ∀ (d : Nat) (clean : List Char),
    (∀ ch ∈ clean, ch ≠ '£') →
    extractCounterGo ((markPref d).data ++ clean) none = List.replicate d "1" := by
  intro d
  induction d with
  | zero => exact fun clean h => extract_no_pound clean h
  | succ d ih =>
    intro clean h
    rw [markPref_data, List.cons_append, List.cons_append, List.cons_append]
    simp only [extractCounterGo]
    norm_num
    rw [ih clean h]
    simp [List.replicate_succ]

end Altinn
namespace Altinn

theorem strip_no_pound : ∀ l : List Char, (∀ ch ∈ l, ch ≠ '£') →
    stripCountersGo l none = l := by
  intro l h
  induction l with
  | nil => rfl
  | cons c rest ih =>
    rw [stripCountersGo, if_neg (by simpa using h c (by simp))]
    rw [ih (fun ch hch => h ch (List.mem_cons_of_mem _ hch))]

theorem strip_markPref : ∀ (d : Nat) (clean : List Char),
    (∀ ch ∈ clean, ch ≠ '£') →
    stripCountersGo ((markPref d).data ++ clean) none = clean := by
  intro d
  induction d with
  | zero => exact fun clean h => strip_no_pound clean h
  | succ d ih =>
    intro clean h
    rw [markPref_data, List.cons_append, List.cons_append, List.cons_append]
    simp only [stripCountersGo]
    norm_num
    exact ih clean h

theorem dropWhile_no_ws : ∀ l : List Char,
    (∀ ch ∈ l, ch.isWhitespace = false) →
    l.dropWhile Char.isWhitespace = l := by
  intro l h
  cases l with
  | nil => rfl
  | cons c rest => rw [List.dropWhile_cons_of_neg (by simp [h c (by simp)])]

theorem pyStrip_id (s : String) (h : ∀ ch ∈ s.data, ch.isWhitespace = false) :
    pyStrip s = s := by
  rw [pyStrip, dropWhile_no_ws _ h, dropWhile_no_ws _ (by simpa using h)]
  simp

theorem joinUnd_chars : ∀ path : List String, ∀ ch ∈ (joinUnd path).data,
    ch = '_' ∨ ∃ t ∈ path, ch ∈ t.data := by
  intro path
  induction path with
  | nil => intro ch hch; cases hch
  | cons t rest ih =>
    intro ch hch
    cases rest with
    | nil => exact Or.inr ⟨t, by simp, hch⟩
    | cons r rs =>
      rw [joinUnd, String.data_append, String.data_append] at hch
      rcases List.mem_append.mp hch with hch | hch
      · rcases List.mem_append.mp hch with hch | hch
        · exact Or.inr ⟨t, by simp, hch⟩
        · left
          simpa using hch
      · rcases ih ch hch with hu | ⟨t2, ht2, hcht⟩
        · exact Or.inl hu
        · exact Or.inr ⟨t2, List.mem_cons_of_mem _ ht2, hcht⟩
      · simp

theorem levels_replicate (d : Nat) :
    _create_levels_col (List.replicate d "1") = min d 2 := by
  rw [_create_levels_col]
  simp only [List.length_replicate]
  split_ifs <;> omega

theorem getLastD_replicate (n : Nat) :
    (List.replicate (n + 1) "1").getLastD "" = "1" := by
  induction n with
  | zero => rfl
  | succ n ih =>
    rw [List.replicate_succ]
    rw [List.getLastD_cons]
    simpa [List.replicate_succ] using ih

/-- One resolved flattened entry for a leaf at tag path `path`, nested
below `path.length - 1` mapping values, matches the amended description. -/
theorem resolveEntry_expected (path : List String) (v : Option String)
    (hne : path ≠ [])
    (hch : ∀ t ∈ path, ∀ ch ∈ t.data, ch ≠ '£' ∧ ch.isWhitespace = false) :
    resolveEntry (markPref (path.length - 1) ++ joinUnd path) (Node.scalar v) =
      expectedRow path v := by
  have hclean : ∀ ch ∈ (joinUnd path).data, ch ≠ '£' ∧ ch.isWhitespace = false := by
    intro ch hmem
    rcases joinUnd_chars path ch hmem with rfl | ⟨t, ht, hcht⟩
    · exact ⟨by decide, by decide⟩
    · exact hch t ht ch hcht
  have hpound : ∀ ch ∈ (joinUnd path).data, ch ≠ '£' :=
    fun ch hm => (hclean ch hm).1
  have hext : _extract_counter (markPref (path.length - 1) ++ joinUnd path) =
      List.replicate (path.length - 1) "1" := by
    rw [_extract_counter, String.data_append]
    exact extract_markPref _ _ hpound
  have hstrip : stripCounters (markPref (path.length - 1) ++ joinUnd path) =
      joinUnd path := by
    rw [stripCounters, String.data_append, strip_markPref _ _ hpound]
  have hlen : path.length ≥ 1 := by
    cases path with
    | nil => exact absurd rfl hne
    | cons t rest => simp
  rw [resolveEntry, hext, hstrip,
    pyStrip_id _ (fun ch hm => (hclean ch hm).2), levels_replicate]
  rw [expectedRow]
  rcases Nat.lt_or_ge path.length 2 with h2 | h2
  · have h1 : path.length = 1 := by omega
    simp [h1]
  · have hpos : 0 < min (path.length - 1) 2 := by omega
    have hsub : path.length - 1 = (path.length - 2) + 1 := by omega
    rw [if_pos hpos]
    have hlast : (List.replicate (path.length - 1) "1").getLastD "" = "1" := by
      rw [hsub]
      exact getLastD_replicate _
    rw [hlast]
    have hne1 : path.length ≠ 1 := by omega
    simp only [hne1, if_false]
    rw [String.append_assoc]
    rfl

end Altinn
namespace Altinn

theorem leafEntriesOf_path (k : String) (v : Node) :
    ∀ p ∈ leafEntriesOf k v, ∃ q, p.1 = k :: q := by
  intro p hp
  cases v with
  | scalar s =>
    rw [leafEntriesOf] at hp
    have hpe : p = ([k], s) := by simpa using hp
    exact ⟨[], by rw [hpe]⟩
  | map m =>
    rw [leafEntriesOf] at hp
    obtain ⟨p0, -, hpe⟩ := List.mem_map.mp hp
    exact ⟨p0.1, by rw [← hpe]⟩
  | list es => cases hp

theorem leafEntriesKVs_path : ∀ kvs : List (String × Node),
    ∀ p ∈ leafEntriesKVs kvs, p.1 ≠ [] := by
  intro kvs
  induction kvs with
  | nil => intro p hp; cases hp
  | cons hd rest ih =>
    obtain ⟨k, v⟩ := hd
    intro p hp
    rw [leafEntriesKVs] at hp
    rcases List.mem_append.mp hp with hp | hp
    · obtain ⟨q, hq⟩ := leafEntriesOf_path k v p hp
      rw [hq]
      exact List.cons_ne_nil _ _
    · exact ih p hp

theorem markPref_len_cons (k t : String) (ts : List String) :
    (k :: t :: ts).length - 1 = ((t :: ts).length - 1) + 1 := by
  simp

theorem key_shift (parent k : String) (path : List String) (hne : path ≠ []) :
    markPref (path.length - 1) ++
        joinP (counterMark 1 ++ (if parent = "" then k else parent ++ "_" ++ k))
          path =
      markPref ((k :: path).length - 1) ++ joinP parent (k :: path) := by
  obtain ⟨t, ts, rfl⟩ : ∃ t ts, path = t :: ts := by
    cases path with
    | nil => exact absurd rfl hne
    | cons t ts => exact ⟨t, ts, rfl⟩
  have hjoin : joinUnd (k :: t :: ts) = k ++ "_" ++ joinUnd (t :: ts) := rfl
  have hP : counterMark 1 ++ (if parent = "" then k else parent ++ "_" ++ k) ≠ "" := by
    intro hemp
    have hlen : (counterMark 1 ++
        (if parent = "" then k else parent ++ "_" ++ k)).length = 0 := by
      rw [hemp]
      rfl
    rw [String.length_append] at hlen
    have : (counterMark 1).length = 3 := rfl
    omega
  rw [joinP, if_neg hP, joinP, markPref_len_cons, ← markPref_snoc, hjoin]
  by_cases hp : parent = ""
  · rw [if_pos hp, hp]
    simp [String.append_assoc]
  · rw [if_neg hp, if_neg hp]
    simp [String.append_assoc]

theorem empty_append_str (s : String) : "" ++ s = s := rfl

theorem leafEntriesOf_scalar (k : String) (s : Option String) :
    leafEntriesOf k (Node.scalar s) = [([k], s)] := rfl

theorem leafEntriesOf_map (k : String) (m : List (String × Node)) :
    leafEntriesOf k (Node.map m) =
      (leafEntriesKVs m).map (fun p => (k :: p.1, p.2)) := rfl

theorem flattenItems_cons_scalar (k : String) (s : Option String)
    (rest : List (String × Node)) (parent sep : String) :
    flattenItems ((k, Node.scalar s) :: rest) parent sep =
      [(if parent = "" then k else parent ++ sep ++ k, Node.scalar s)] ++
        flattenItems rest parent sep := rfl

theorem flattenItems_cons_map (k : String) (m rest : List (String × Node))
    (parent sep : String) :
    flattenItems ((k, Node.map m) :: rest) parent sep =
      flattenItems m
          (counterMark 1 ++ (if parent = "" then k else parent ++ sep ++ k)) sep ++
        flattenItems rest parent sep := rfl

theorem flattenItems_noLists : ∀ (n : Nat) (kvs : List (String × Node)),
    sizeOf kvs < n → noListsKVs kvs = true → ∀ parent : String,
    flattenItems kvs parent "_" =
      (leafEntriesKVs kvs).map (fun p =>
        (markPref (p.1.length - 1) ++ joinP parent p.1, Node.scalar p.2)) := by
  intro n
  induction n with
  | zero => intro kvs h; omega
  | succ n ih =>
    intro kvs hsz hnl parent
    cases kvs with
    | nil => rfl
    | cons hd rest =>
      obtain ⟨k, v⟩ := hd
      have hszr : sizeOf rest < n := by
        simp only [List.cons.sizeOf_spec, Prod.mk.sizeOf_spec] at hsz
        omega
      rw [noListsKVs] at hnl
      simp only [Bool.and_eq_true] at hnl
      obtain ⟨hv, hrest⟩ := hnl
      cases v with
      | scalar s =>
        rw [flattenItems_cons_scalar, leafEntriesKVs, List.map_append,
          ih rest hszr hrest parent]
        rfl
      | map m =>
        have hszm : sizeOf m < n := by
          simp only [List.cons.sizeOf_spec, Prod.mk.sizeOf_spec,
            Node.map.sizeOf_spec] at hsz
          omega
        have hv2 : noListsKVs m = true := hv
        rw [flattenItems_cons_map, leafEntriesKVs, List.map_append,
          ih rest hszr hrest parent]
        congr 1
        rw [leafEntriesOf_map, List.map_map]
        rw [ih m hszm hv2
          (counterMark 1 ++ (if parent = "" then k else parent ++ "_" ++ k))]
        apply List.map_congr_left
        intro p hp
        have hne := leafEntriesKVs_path m p hp
        simp only [Function.comp]
        rw [key_shift parent k p.1 hne]
      | list es => exact Bool.noConfusion hv

end Altinn
namespace Altinn

theorem pyDictGo_nodup : ∀ (items : List (String × Node)) (seen : List String),
    (items.map Prod.fst).Nodup → (∀ p ∈ items, p.1 ∉ seen) →
    pyDictGo seen items = items := by
  intro items
  induction items with
  | nil => intro seen h1 h2; rfl
  | cons hd rest ih =>
    obtain ⟨k, v⟩ := hd
    intro seen hnd hseen
    rw [List.map_cons, List.nodup_cons] at hnd
    have hcont : ¬ seen.contains k = true := by
      simpa using hseen (k, v) (by simp)
    rw [pyDictGo, if_neg hcont]
    have hfil : rest.filter (fun p => p.1 = k) = [] := by
      rw [List.filter_eq_nil_iff]
      intro p hp
      simp only [decide_eq_true_eq]
      intro hpk
      exact hnd.1 (List.mem_map.mpr ⟨p, hp, hpk⟩)
    rw [hfil]
    have hrest2 : ∀ p ∈ rest, p.1 ∉ k :: seen := by
      intro p hp hmem
      rcases List.mem_cons.mp hmem with hm | hm
      · exact hnd.1 (List.mem_map.mpr ⟨p, hp, hm⟩)
      · exact hseen p (List.mem_cons_of_mem _ hp) hm
    rw [ih (k :: seen) hnd.2 hrest2]
    rfl

/-- C1: refuted as stated.  `docCollide` contains no list values, yet its
two scalar leaves flatten to the single marker-carrying key `£1$a_b_c`
(recursing into a plain nested mapping DOES prepend a `£1$` counter
marker), so flatten-plus-resolve returns ONE row for TWO leaves, and that
row carries counter `["1"]`, level 1 (not 0) and the suffixed name
`a_b_c_001` (not the bare `_`-joined tag path). -/
theorem flatten_resolve_counterexample :
    noListsKVs docCollide = true ∧
    (leafEntriesKVs docCollide).length = 2 ∧
    (flattenAndResolve docCollide).length = 1 ∧
    (flattenAndResolve docCollide).map (fun r => r.FELTNAVN) = ["a_b_c_001"] ∧
    (flattenAndResolve docCollide).map (fun r => r.COUNTER) = [["1"]] ∧
    (flattenAndResolve docCollide).map (fun r => r.LEVELS) = [1] := by
  exact ⟨rfl, rfl, rfl, rfl, rfl, rfl⟩

/-- C1 (amended): for a document with no repeated sibling groups, whose tag
names are marker-free and whitespace-free, and whose flattened keys do not
collide, flattening followed by counter resolution produces exactly one row
per scalar leaf, in document order; a leaf whose tag path crosses
`path.length - 1` nested mappings carries that many `"1"` counters (one per
mapping crossed — recursing into a plain nested-mapping value DOES add a
`£1$` marker), its level is `min (path.length - 1) 2`, and its field name
is the `_`-joined tag path, with a `_001` suffix appended whenever any
counter exists; only top-level leaves have an empty counter list, level 0
and the bare joined path as name. -/
theorem flatten_resolve_no_lists (d : List (String × Node))
    (hnl : noListsKVs d = true)
    (hch : ∀ p ∈ leafEntriesKVs d, ∀ t ∈ p.1, ∀ ch ∈ t.data,
      ch ≠ '£' ∧ ch.isWhitespace = false)
    (hnd : ((flattenItems d "" "_").map Prod.fst).Nodup) :
    flattenAndResolve d =
      (leafEntriesKVs d).map (fun p => expectedRow p.1 p.2) := by
  have hfl := flattenItems_noLists (sizeOf d + 1) d (by omega) hnl ""
  show ((pyDictGo [] (flattenItems d "" "_")).map
    (fun p => resolveEntry p.1 p.2)) = _
  rw [pyDictGo_nodup _ [] hnd (by simp), hfl, List.map_map]
  apply List.map_congr_left
  intro p hp
  simp only [Function.comp]
  have hne := leafEntriesKVs_path d p hp
  have hjp : joinP "" p.1 = joinUnd p.1 := by rw [joinP, if_pos rfl]
  rw [hjp]
  exact resolveEntry_expected p.1 p.2 hne (fun t ht => hch p hp t ht)

/-- The amended round-trip observed on a concrete two-leaf document. -/
theorem flatten_resolve_no_lists_witness :
    flattenAndResolve docLin =
      (leafEntriesKVs docLin).map (fun p => expectedRow p.1 p.2) :=
  flatten_resolve_no_lists docLin (by decide) (by decide) (by decide)

end Altinn

namespace Altinn

/-! ### C5: running numbers of the table-in-table unpivot -/

set_option maxRecDepth 10000 in
/-- The zero-filled rendering of a running number below 1000 has exactly
three characters. -/
theorem zfill_toString_len : ∀ m : Nat, m < 1000 →
    (zfill (toString (m : Int)) 3).data.length = 3 := by decide

set_option maxRecDepth 10000 in
/-- `astype(int)` inverts the zero-filled rendering of a running number
below 1000. -/
theorem pyInt_zfill_nat : ∀ m : Nat, m < 1000 →
    pyInt (zfill (toString (m : Int)) 3) = .ok (m : Int) := by decide

/-- `s[-3:]` on a name ending in a three-character suffix recovers the
suffix. -/
theorem lastChars_append (base t : String) (h : t.data.length = 3) :
    lastChars 3 (base ++ "_" ++ t) = t := by
  have hd : (base ++ "_" ++ t).data = (base.data ++ ['_']) ++ t.data := by
    simp [String.data_append]
  rw [lastChars, hd]
  have hlen : ((base.data ++ ['_']) ++ t.data).length - 3
      = (base.data ++ ['_']).length := by
    simp [h]
  rw [hlen, List.drop_left]

/-- Reading the last three characters of a suffixed name back as an int
recovers the running number, for numbers in `[0, 999]`. -/
theorem suffix_parse (base : String) (n : Int) (h0 : 0 ≤ n) (h9 : n ≤ 999) :
    pyInt (lastChars 3 (base ++ "_" ++ zfill (toString n) 3)) = .ok n := by
  obtain ⟨m, rfl⟩ : ∃ m : Nat, n = (m : Int) :=
    ⟨n.toNat, (Int.toNat_of_nonneg h0).symm⟩
  have hm : m < 1000 := by omega
  rw [lastChars_append _ _ (zfill_toString_len m hm)]
  exact pyInt_zfill_nat m hm

/-- Every melted row's name is some column name plus a suffixed running
number `current_count + i` with `i` below `max_length`. -/
theorem meltCols_mem (cols : List (String × List (Option String))) (cc : Int)
    (L : Nat) (r : TRow) (h : r ∈ meltCols cols cc L) :
    ∃ base i, i < L ∧
      r.FELTNAVN = base ++ "_" ++ zfill (toString (cc + (i : Int))) 3 := by
  simp only [meltCols, List.mem_flatMap, List.mem_map, List.mem_range] at h
  obtain ⟨c, _, i, hi, rfl⟩ := h
  exact ⟨c.1, i, hi, rfl⟩

/-- A nonempty melt attains the top running number
`current_count + (max_length - 1)`. -/
theorem meltCols_attained (cols : List (String × List (Option String))) (cc : Int)
    (L : Nat) (hc : cols ≠ []) (hL : 0 < L) :
    ∃ r ∈ meltCols cols cc L, ∃ base,
      r.FELTNAVN = base ++ "_" ++ zfill (toString (cc + ((L - 1 : Nat) : Int))) 3 := by
  obtain ⟨c, cols2, rfl⟩ : ∃ c cols2, cols = c :: cols2 := by
    cases cols with
    | nil => exact absurd rfl hc
    | cons c cs => exact ⟨c, cs, rfl⟩
  refine ⟨{ FELTNAVN := c.1 ++ "_" ++ zfill (toString (cc + ((L - 1 : Nat) : Int))) 3,
            FELTVERDI := List.getD c.2 (L - 1) none }, ?_, c.1, rfl⟩
  simp only [meltCols, List.mem_flatMap, List.mem_map, List.mem_range]
  exact ⟨c, List.mem_cons_self c cols2, L - 1, by omega, rfl⟩

/-- Melting a zero-length frame emits nothing. -/
theorem meltCols_zero (cols : List (String × List (Option String))) (cc : Int) :
    meltCols cols cc 0 = [] := by
  simp [meltCols]

/-- `astype(int)` on the accumulated names succeeds when every name
parses. -/
theorem astypeIntNames_ok_of : ∀ (rows : List TRow),
    (∀ r ∈ rows, ∃ n, pyInt (lastChars 3 r.FELTNAVN) = .ok n) →
    ∃ parsed, astypeIntNames rows = .ok parsed
  | [], _ => ⟨[], rfl⟩
  | r :: rest, h => by
    obtain ⟨n, hn⟩ := h r (List.mem_cons_self r rest)
    obtain ⟨ns, hns⟩ := astypeIntNames_ok_of rest
      (fun x hx => h x (List.mem_cons_of_mem _ hx))
    refine ⟨n :: ns, ?_⟩
    unfold astypeIntNames
    rw [hn]
    dsimp only
    rw [hns]

/-- Every parsed value comes from some accumulated row. -/
theorem astypeIntNames_mem_src : ∀ (rows : List TRow) (parsed : List Int),
    astypeIntNames rows = .ok parsed → ∀ x ∈ parsed,
    ∃ r ∈ rows, pyInt (lastChars 3 r.FELTNAVN) = .ok x
  | [], parsed, h => by
    have h' : Except.ok ([] : List Int) = Except.ok parsed := h
    injection h' with h2
    subst h2
    intro x hx
    cases hx
  | r :: rest, parsed, h => by
    unfold astypeIntNames at h
    cases hn : pyInt (lastChars 3 r.FELTNAVN) with
    | error e => rw [hn] at h; exact absurd h (by simp)
    | ok n =>
      rw [hn] at h
      dsimp only at h
      cases hns : astypeIntNames rest with
      | error e => rw [hns] at h; exact absurd h (by simp)
      | ok ns =>
        rw [hns] at h
        dsimp only at h
        injection h with h2
        subst h2
        intro x hx
        rcases List.mem_cons.mp hx with rfl | hx2
        · exact ⟨r, List.mem_cons_self r rest, hn⟩
        · obtain ⟨r2, hr2, hp2⟩ := astypeIntNames_mem_src rest ns hns x hx2
          exact ⟨r2, List.mem_cons_of_mem _ hr2, hp2⟩

/-- Each accumulated row's parsed running number appears among the parsed
values. -/
theorem astypeIntNames_mem_val : ∀ (rows : List TRow) (parsed : List Int)
    (r : TRow) (n : Int),
    astypeIntNames rows = .ok parsed → r ∈ rows →
    pyInt (lastChars 3 r.FELTNAVN) = .ok n → n ∈ parsed
  | [], _, r, _, _, hr, _ => absurd hr (List.not_mem_nil r)
  | r0 :: rest, parsed, r, n, h, hr, hp => by
    unfold astypeIntNames at h
    cases hn : pyInt (lastChars 3 r0.FELTNAVN) with
    | error e => rw [hn] at h; exact absurd h (by simp)
    | ok n0 =>
      rw [hn] at h
      dsimp only at h
      cases hns : astypeIntNames rest with
      | error e => rw [hns] at h; exact absurd h (by simp)
      | ok ns =>
        rw [hns] at h
        dsimp only at h
        injection h with h2
        subst h2
        rcases List.mem_cons.mp hr with rfl | hr2
        · rw [hp] at hn
          injection hn with h3
          subst h3
          exact List.mem_cons_self n ns
        · exact List.mem_cons_of_mem _
            (astypeIntNames_mem_val rest ns r n hns hr2 hp)

/-- The seed is below a left max-fold. -/
theorem foldl_max_init {C : Type} [LinearOrder C] : ∀ (l : List C) (a : C),
    a ≤ l.foldl max a
  | [], a => le_refl a
  | x :: rest, a => le_trans (le_max_left a x) (foldl_max_init rest (max a x))

/-- Every element is below a left max-fold over its list. -/
theorem foldl_max_mem {C : Type} [LinearOrder C] : ∀ (l : List C) (a x : C),
    x ∈ l → x ≤ l.foldl max a
  | [], _, x, hx => absurd hx (List.not_mem_nil x)
  | x0 :: rest, a, x, hx => by
    rcases List.mem_cons.mp hx with rfl | h2
    · exact le_trans (le_max_right a x) (foldl_max_init rest (max a x))
    · exact foldl_max_mem rest (max a x0) x h2

/-- A left max-fold stays below any common upper bound. -/
theorem foldl_max_le {C : Type} [LinearOrder C] : ∀ (l : List C) (a b : C),
    a ≤ b → (∀ x ∈ l, x ≤ b) → l.foldl max a ≤ b
  | [], _, _, ha, _ => ha
  | x :: rest, a, b, ha, h =>
    foldl_max_le rest (max a x) b (max_le ha (h x (List.mem_cons_self x rest)))
      (fun y hy => h y (List.mem_cons_of_mem _ hy))

/-- `max` of a list containing its upper bound returns the bound. -/
theorem pyMax_eq (l : List Int) (b : Int) (hmem : b ∈ l)
    (hub : ∀ x ∈ l, x ≤ b) : pyMax l = .ok b := by
  cases l with
  | nil => cases hmem
  | cons x rest =>
    show Except.ok (rest.foldl max x) = Except.ok b
    congr 1
    apply le_antisymm
    · exact foldl_max_le rest x b (hub x (List.mem_cons_self x rest))
        (fun y hy => hub y (List.mem_cons_of_mem _ hy))
    · rcases List.mem_cons.mp hmem with rfl | h2
      · exact foldl_max_init rest b
      · exact foldl_max_mem rest x b h2

end Altinn

namespace Altinn

/-- `max(len(values) ...)` never exceeds a common length bound on the
columns. -/
theorem tntMaxLen_le (rd : List (String × List (Option String))) (L B : Nat)
    (h : tntMaxLen rd = .ok L) (hb : ∀ c ∈ rd, c.2.length ≤ B) : L ≤ B := by
  cases rd with
  | nil =>
    have h' : Except.error (PyError.valueError "max() arg is an empty sequence")
        = Except.ok L := h
    cases h'
  | cons c rest =>
    have h' : Except.ok ((rest.map (fun c2 => c2.2.length)).foldl max c.2.length)
        = Except.ok L := h
    injection h' with h2
    rw [← h2]
    refine foldl_max_le _ _ _ (hb c (List.mem_cons_self c rest)) ?_
    intro y hy
    obtain ⟨c2, hc2, rfl⟩ := List.mem_map.mp hy
    exact hb c2 (List.mem_cons_of_mem _ hc2)

/-- A successful `max(len(values) ...)` means `row_data` is nonempty. -/
theorem tntMaxLen_ne_nil (rd : List (String × List (Option String))) (L : Nat)
    (h : tntMaxLen rd = .ok L) : rd ≠ [] := by
  intro he
  subst he
  have h' : Except.error (PyError.valueError "max() arg is an empty sequence")
      = Except.ok L := h
  cases h'

/-- Dict assignment only rewrites the given key: every column of the
result was already there or is the freshly assigned one. -/
theorem setCol_mem (cols : List (String × List (Option String))) (f : String)
    (v : List (Option String)) (c : String × List (Option String))
    (h : c ∈ setCol cols f v) : c ∈ cols ∨ c = (f, v) := by
  unfold setCol at h
  by_cases hc : cols.any (fun c2 => c2.1 = f) = true
  · rw [if_pos hc] at h
    obtain ⟨c2, hc2, he⟩ := List.mem_map.mp h
    by_cases h2 : c2.1 = f
    · rw [if_pos h2] at he
      exact Or.inr he.symm
    · rw [if_neg h2] at he
      exact Or.inl (he ▸ hc2)
  · rw [if_neg hc] at h
    rcases List.mem_append.mp h with h1 | h1
    · exact Or.inl h1
    · exact Or.inr (List.mem_singleton.mp h1)

/-- Dict assignment never empties the dict. -/
theorem setCol_ne_nil (cols : List (String × List (Option String))) (f : String)
    (v : List (Option String)) : setCol cols f v ≠ [] := by
  unfold setCol
  by_cases hc : cols.any (fun c2 => c2.1 = f) = true
  · rw [if_pos hc]
    intro he
    rw [List.map_eq_nil_iff] at he
    subst he
    simp at hc
  · rw [if_neg hc]
    simp

/-- A fold whose step preserves nonemptiness preserves nonemptiness. -/
theorem foldl_ne_nil {C D : Type} (g : List C → D → List C)
    (hg : ∀ t f, t ≠ [] → g t f ≠ []) :
    ∀ (fields : List D) (t0 : List C), t0 ≠ [] → fields.foldl g t0 ≠ []
  | [], _, h => h
  | f :: rest, t0, h => foldl_ne_nil g hg rest (g t0 f) (hg t0 f h)

/-- The `test` frame keeps at least the (nonempty) `row_data` columns. -/
theorem testOf_ne_nil (df_meta : List TRow) (tf : List String) (lopenr : String)
    (row_data : List (String × List (Option String))) (L : Nat)
    (h : row_data ≠ []) : testOf df_meta tf lopenr row_data L ≠ [] := by
  unfold testOf
  apply foldl_ne_nil
  · intro t f ht
    split
    · exact setCol_ne_nil _ _ _
    · exact ht
  · intro he
    rw [List.map_eq_nil_iff] at he
    exact h he

/-- Every column built by the `row_data` fold satisfies a property enjoyed
by the seed columns and by every assigned value. -/
theorem foldl_setCol_bound (P : List (Option String) → Prop) :
    ∀ (fields : List String) (F : String → List (Option String))
      (rd0 : List (String × List (Option String))),
      (∀ c ∈ rd0, P c.2) → (∀ f, P (F f)) →
      ∀ c ∈ fields.foldl (fun rd f => setCol rd f (F f)) rd0, P c.2
  | [], _, _, h0, _, c, hc => h0 c hc
  | f :: rest, F, rd0, h0, hF, c, hc => by
    refine foldl_setCol_bound P rest F (setCol rd0 f (F f)) ?_ hF c hc
    intro c2 hc2
    rcases setCol_mem rd0 f (F f) c2 hc2 with h1 | h1
    · exact h0 c2 h1
    · rw [h1]
      exact hF f

/-- Every `row_data` column holds at most one value per `df_row` row. -/
theorem rowDataOf_bound (df_row : List TRow) (rf : List String) (lopenr : String) :
    ∀ c ∈ rowDataOf df_row rf lopenr, c.2.length ≤ df_row.length := by
  apply foldl_setCol_bound (fun v => v.length ≤ df_row.length) rf _ []
  · intro c hc
    cases hc
  · intro f
    rw [List.length_map]
    exact List.length_filter_le _ df_row

/-- Deduplication never lengthens a list. -/
theorem pyUniqueGo_length_le {C : Type} [BEq C] : ∀ (l : List C) (seen : List C),
    (pyUniqueGo seen l).length ≤ l.length
  | [], _ => Nat.le_refl 0
  | x :: rest, seen => by
    unfold pyUniqueGo
    by_cases hx : seen.contains x = true
    · rw [if_pos hx]
      exact Nat.le_succ_of_le (pyUniqueGo_length_le rest seen)
    · rw [if_neg hx]
      rw [List.length_cons, List.length_cons]
      exact Nat.succ_le_succ (pyUniqueGo_length_le rest (x :: seen))

/-- Under the accumulator invariant, `current_count` is exactly one more
than the running-number high-water mark. -/
theorem tntCurrentCount_eq (start hi : Int) (acc : Option (List TRow)) (cc : Int)
    (hs : 1 ≤ start) (h9 : hi ≤ 999) (hinv : AccInv start hi acc)
    (h : tntCurrentCount start acc = .ok cc) : cc = hi + 1 := by
  cases acc with
  | none =>
    have h' : Except.ok start = Except.ok cc := h
    injection h' with h2
    have hinv' : hi = start - 1 := hinv
    omega
  | some rows =>
    obtain ⟨hbnd, hatt⟩ := hinv
    rcases hatt with rfl | ⟨r0, hr0, base0, hname0⟩
    · have h' : Except.error (PyError.valueError "max() arg is an empty sequence")
          = Except.ok cc := h
      cases h'
    · obtain ⟨b0, n0, _, hn0s, hn0h⟩ := hbnd r0 hr0
      have hhi0 : 0 ≤ hi := by omega
      obtain ⟨parsed, hpd⟩ := astypeIntNames_ok_of rows (by
        intro r hr
        obtain ⟨b, n, hname, hns, hnh⟩ := hbnd r hr
        refine ⟨n, ?_⟩
        rw [hname]
        exact suffix_parse b n (by omega) (by omega))
      have hub : ∀ x ∈ parsed, x ≤ hi := by
        intro x hx
        obtain ⟨r, hr, hpx⟩ := astypeIntNames_mem_src rows parsed hpd x hx
        obtain ⟨b, n, hname, hns, hnh⟩ := hbnd r hr
        have hcan : pyInt (lastChars 3 r.FELTNAVN) = .ok n := by
          rw [hname]
          exact suffix_parse b n (by omega) (by omega)
        rw [hcan] at hpx
        injection hpx with h2
        omega
      have hmem : hi ∈ parsed := by
        refine astypeIntNames_mem_val rows parsed r0 hi hpd hr0 ?_
        rw [hname0]
        exact suffix_parse base0 hi hhi0 h9
      have hval : tntCurrentCount start (some rows) = .ok (hi + 1) := by
        unfold tntCurrentCount
        dsimp only
        rw [hpd]
        dsimp only
        rw [pyMax_eq parsed hi hmem hub]
      rw [hval] at h
      injection h with h2
      omega

end Altinn

namespace Altinn

/-- The lopenr loop keeps the accumulator invariant: with enough headroom
below 999, a successful run ends at some high-water mark `hi2 ≤ 999`
with every accumulated name carrying a running number in
`[start, hi2]`. -/
theorem tntLoop_inv (df_row df_meta : List TRow) (rf tf : List String)
    (start : Int) (hs : 1 ≤ start) :
    ∀ (lopenrs : List String) (acc : Option (List TRow)) (hi : Int)
      (out : Option (List TRow)),
      tntLoop df_row df_meta rf tf start lopenrs acc = .ok out →
      AccInv start hi acc →
      start - 1 ≤ hi →
      hi + ((lopenrs.length * df_row.length : Nat) : Int) ≤ 999 →
      ∃ hi2, start - 1 ≤ hi2 ∧ hi2 ≤ 999 ∧ AccInv start hi2 out
  | [], acc, hi, out, h, hinv, hlo, hbud => by
    have h' : Except.ok acc = Except.ok out := h
    injection h' with h2
    subst h2
    refine ⟨hi, hlo, ?_, hinv⟩
    simpa using hbud
  | lopenr :: rest, acc, hi, out, h, hinv, hlo, hbud => by
    unfold tntLoop at h
    cases hml : tntMaxLen (rowDataOf df_row rf lopenr) with
    | error e =>
      rw [hml] at h
      exact absurd h (by simp)
    | ok L =>
      rw [hml] at h
      dsimp only at h
      cases hcc : tntCurrentCount start acc with
      | error e =>
        rw [hcc] at h
        exact absurd h (by simp)
      | ok cc =>
        rw [hcc] at h
        dsimp only at h
        have hL : L ≤ df_row.length :=
          tntMaxLen_le _ L df_row.length hml (rowDataOf_bound df_row rf lopenr)
        have h9 : hi ≤ 999 := by
          have hnn : (0:Int) ≤ (((lopenr :: rest).length * df_row.length : Nat) : Int) :=
            Int.natCast_nonneg _
          omega
        have hcceq : cc = hi + 1 := tntCurrentCount_eq start hi acc cc hs h9 hinv hcc
        subst hcceq
        have hbudsplit : hi + ((rest.length * df_row.length : Nat) : Int)
            + (L : Int) ≤ 999 := by
          have e1 : (lopenr :: rest).length * df_row.length
              = rest.length * df_row.length + df_row.length := by
            rw [List.length_cons, Nat.succ_mul]
          rw [e1] at hbud
          omega
        have hinv2 : AccInv start (hi + (L : Int))
            (some (acc.getD [] ++
              meltCols (testOf df_meta tf lopenr (rowDataOf df_row rf lopenr) L)
                (hi + 1) L)) := by
          constructor
          · intro r hr
            rcases List.mem_append.mp hr with h1 | h1
            · cases acc with
              | none => exact absurd h1 (List.not_mem_nil r)
              | some rows =>
                obtain ⟨hbnd, _⟩ := hinv
                obtain ⟨b, n, hname, hns, hnh⟩ := hbnd r h1
                refine ⟨b, n, hname, hns, ?_⟩
                omega
            · obtain ⟨b, i, hiL, hname⟩ := meltCols_mem _ _ _ r h1
              refine ⟨b, hi + 1 + (i : Int), hname, by omega, ?_⟩
              omega
          · cases Nat.eq_zero_or_pos L with
            | inl h0 =>
              subst h0
              rw [meltCols_zero, List.append_nil]
              cases acc with
              | none =>
                exact Or.inl rfl
              | some rows =>
                obtain ⟨_, hatt⟩ := hinv
                have he : hi + ((0 : Nat) : Int) = hi := by omega
                rw [he]
                exact hatt
            | inr hpos =>
              apply Or.inr
              have hne : testOf df_meta tf lopenr (rowDataOf df_row rf lopenr) L ≠ [] :=
                testOf_ne_nil _ _ _ _ _ (tntMaxLen_ne_nil _ L hml)
              obtain ⟨r, hrmem, b, hname⟩ := meltCols_attained _ (hi + 1) L hne hpos
              refine ⟨r, List.mem_append_right _ hrmem, b, ?_⟩
              rw [hname]
              have he : hi + 1 + ((L - 1 : Nat) : Int) = hi + (L : Int) := by omega
              rw [he]
        refine tntLoop_inv df_row df_meta rf tf start hs rest _
          (hi + (L : Int)) out h hinv2 ?_ ?_
        · omega
        · omega

end Altinn

namespace Altinn

/-- Within one unpivot call with headroom below 999, every output name is
a base field name plus `"_" + str(n).zfill(3)` for some running number
`n` in `[start, 999]`. -/
theorem unpivotCore_bounds (td : List TRow) (tf rf : List String) (start : Int)
    (rows : List TRow)
    (h : unpivotCore td tf rf start = .ok rows)
    (hs : 1 ≤ start)
    (hb : start + ((td.length * td.length : Nat) : Int) ≤ 1000) :
    ∀ r ∈ rows, ∃ base n,
      r.FELTNAVN = base ++ "_" ++ zfill (toString n) 3 ∧ start ≤ n ∧ n ≤ 999 := by
  unfold unpivotCore at h
  obtain ⟨flatOpt, h1, h2⟩ := exceptBind_ok_inv h
  injection h2 with h2
  subst h2
  have hlen1 : (pyUnique ((td.filter
      (fun r => containsAnyCI rf r.FELTNAVN)).map
        (fun r => lastToken r.FELTNAVN))).length
      ≤ (td.filter (fun r => containsAnyCI rf r.FELTNAVN)).length := by
    refine le_trans (pyUniqueGo_length_le _ []) ?_
    rw [List.length_map]
  have hlen2 : (td.filter (fun r => containsAnyCI rf r.FELTNAVN)).length
      ≤ td.length := List.length_filter_le _ td
  obtain ⟨hi2, hlo2, h999, hinv2⟩ := tntLoop_inv
    (td.filter (fun r => containsAnyCI rf r.FELTNAVN)) _ rf tf start hs
    _ none (start - 1) flatOpt h1 rfl (le_refl _) (by
      have hmul : (pyUnique ((td.filter
          (fun r => containsAnyCI rf r.FELTNAVN)).map
            (fun r => lastToken r.FELTNAVN))).length
          * (td.filter (fun r => containsAnyCI rf r.FELTNAVN)).length
          ≤ td.length * td.length :=
        Nat.mul_le_mul (le_trans hlen1 hlen2) hlen2
      omega)
  cases flatOpt with
  | none =>
    intro r hr
    exact absurd hr (List.not_mem_nil r)
  | some rows2 =>
    intro r hr
    obtain ⟨hbnd, _⟩ := hinv2
    obtain ⟨b, n, hname, hns, hnh⟩ := hbnd r hr
    exact ⟨b, n, hname, hns, by omega⟩

end Altinn

namespace Altinn

/-- C5: within one `transform_table_in_table` unpivot call the running
numbers start at `counter_starting_value` for the first outer instance and
each later instance continues from the maximum already assigned plus one;
hence every output name carries a running number in `[start, 999]`, and
across two sequential calls whose second start is chained above every
running number readable from the first call's output, no output row of the
first call shares a field name with one of the second. -/
theorem unpivot_running_number_spec
    (td1 td2 : List TRow) (tf1 rf1 tf2 rf2 : List String)
    (start1 start2 : Int) (rows1 rows2 : List TRow)
    (h1 : unpivotCore td1 tf1 rf1 start1 = .ok rows1)
    (h2 : unpivotCore td2 tf2 rf2 start2 = .ok rows2)
    (hs1 : 1 ≤ start1) (hs2 : 1 ≤ start2)
    (hb1 : start1 + ((td1.length * td1.length : Nat) : Int) ≤ 1000)
    (hb2 : start2 + ((td2.length * td2.length : Nat) : Int) ≤ 1000)
    (hchain : ∀ r ∈ rows1, ∀ k : Int,
      pyInt (lastChars 3 r.FELTNAVN) = .ok k → k < start2) :
    (∀ r ∈ rows1, ∃ base n, r.FELTNAVN = base ++ "_" ++ zfill (toString n) 3 ∧
      start1 ≤ n ∧ n ≤ 999) ∧
    (∀ r ∈ rows2, ∃ base n, r.FELTNAVN = base ++ "_" ++ zfill (toString n) 3 ∧
      start2 ≤ n ∧ n ≤ 999) ∧
    (∀ r1 ∈ rows1, ∀ r2 ∈ rows2, r1.FELTNAVN ≠ r2.FELTNAVN) := by
  have hB1 := unpivotCore_bounds td1 tf1 rf1 start1 rows1 h1 hs1 hb1
  have hB2 := unpivotCore_bounds td2 tf2 rf2 start2 rows2 h2 hs2 hb2
  refine ⟨hB1, hB2, ?_⟩
  intro r1 hr1 r2 hr2 heq
  obtain ⟨b1, n1, hname1, hs1n, h91⟩ := hB1 r1 hr1
  obtain ⟨b2, n2, hname2, hs2n, h92⟩ := hB2 r2 hr2
  have hp1 : pyInt (lastChars 3 r1.FELTNAVN) = .ok n1 := by
    rw [hname1]
    exact suffix_parse b1 n1 (by omega) h91
  have hp2 : pyInt (lastChars 3 r2.FELTNAVN) = .ok n2 := by
    rw [hname2]
    exact suffix_parse b2 n2 (by omega) h92
  have hlt := hchain r1 hr1 n1 hp1
  rw [heq] at hp1
  rw [hp2] at hp1
  injection hp1 with hk
  omega

/-- The running-number contract observed on two concrete chained unpivot
calls over a one-row table. -/
theorem unpivot_running_number_spec_witness :
    unpivotCore tntWTable [] ["A"] 1 = .ok tntW1 ∧
    unpivotCore tntWTable [] ["A"] 2 = .ok tntW2 ∧
    ∀ r1 ∈ tntW1, ∀ r2 ∈ tntW2, r1.FELTNAVN ≠ r2.FELTNAVN := by
  refine ⟨rfl, rfl, ?_⟩
  refine (unpivot_running_number_spec tntWTable tntWTable [] ["A"] [] ["A"] 1 2
    tntW1 tntW2 rfl rfl (by decide) (by decide) (by decide) (by decide) ?_).2.2
  intro r hr k hk
  simp only [tntW1, List.mem_singleton] at hr
  subst hr
  dsimp only at hk
  rw [show pyInt (lastChars 3 "A_001") = .ok 1 from rfl] at hk
  injection hk with hk2
  omega

end Altinn
